import Mathlib

/-!
Verification of the N2S estimator core.

This file gives a shallow embedding over `ℚ` of the estimation pipeline of
the `n2s_estimator` package (base estimator, pricing engine, add-on package
calculator and orchestrator summaries), together with theorems settling the
specification claims.  Python dicts are modelled as association lists with
first-occurrence update semantics, and machine floats as exact rationals.
-/

namespace N2S

/-! ### Association lists modelling Python dicts -/

/-- Python `dict.get(k, d)`: value of the first binding of `k`, else `d`. -/
def getD {α β : Type} [DecidableEq α] : List (α × β) → α → β → β
  | [], _, d => d
  | (k', v) :: rest, k, d => if k' = k then v else getD rest k d

/-- Python `dict.get(k)`: value of the first binding of `k`, else `none`. -/
def getOpt {α β : Type} [DecidableEq α] : List (α × β) → α → Option β
  | [], _ => none
  | (k', v) :: rest, k => if k' = k then some v else getOpt rest k

/-- Python `k in dict`. -/
def hasKey {α β : Type} [DecidableEq α] : List (α × β) → α → Bool
  | [], _ => false
  | (k', _) :: rest, k => k' = k || hasKey rest k

/-- Python `dict[k] = v`: update the first binding in place, else append. -/
def setKey {α β : Type} [DecidableEq α] : List (α × β) → α → β → List (α × β)
  | [], k, v => [(k, v)]
  | (k', v') :: rest, k, v =>
      if k' = k then (k, v) :: rest else (k', v') :: setKey rest k v

/-- Python `dict(pairs)` / a dict comprehension: fold `setKey` over pairs. -/
def dictOfList {α β : Type} [DecidableEq α] (l : List (α × β)) : List (α × β) :=
  l.foldl (fun acc p => setKey acc p.1 p.2) []

/-- Apply `f` to every value, keeping keys and order. -/
def mapValues {α β γ : Type} (f : β → γ) (l : List (α × β)) : List (α × γ) :=
  l.map fun p => (p.1, f p.2)

/-- Python `sum(dict.values())`. -/
def sumValues {α : Type} (l : List (α × ℚ)) : ℚ :=
  (l.map Prod.snd).sum

/-- Python `d[k] = d.get(k, 0) + v` (the accumulation idiom). -/
def addKey {α : Type} [DecidableEq α] (l : List (α × ℚ)) (k : α) (v : ℚ) :
    List (α × ℚ) :=
  setKey l k (getD l k 0 + v)

theorem getD_setKey_self {α β : Type} [DecidableEq α]
    (l : List (α × β)) (k : α) (v : β) (d : β) :
    getD (setKey l k v) k d = v := by
  induction l with
  | nil => simp [setKey, getD]
  | cons p rest ih =>
      by_cases h : p.1 = k
      · simp [setKey, h, getD]
      · simp [setKey, h, getD, ih]

theorem getD_setKey_ne {α β : Type} [DecidableEq α]
    (l : List (α × β)) (k j : α) (v : β) (d : β) (hne : j ≠ k) :
    getD (setKey l k v) j d = getD l j d := by
  induction l with
  | nil => simp [setKey, getD, Ne.symm hne]
  | cons p rest ih =>
      by_cases h : p.1 = k
      · simp [setKey, h, getD, Ne.symm hne]
      · simp [setKey, h, getD, ih]

theorem sumValues_setKey {α : Type} [DecidableEq α]
    (l : List (α × ℚ)) (k : α) (v : ℚ) :
    sumValues (setKey l k v) = sumValues l - getD l k 0 + v := by
  induction l with
  | nil => simp [setKey, sumValues, getD]
  | cons p rest ih =>
      by_cases h : p.1 = k
      · simp [setKey, h, sumValues, getD]
        ring
      · simp [setKey, h, sumValues, getD] at *
        rw [ih]
        ring

theorem sumValues_nonneg {α : Type} (l : List (α × ℚ))
    (h : ∀ p ∈ l, 0 ≤ p.2) : 0 ≤ sumValues l := by
  induction l with
  | nil => simp [sumValues]
  | cons p rest ih =>
      have h1 := h p (by simp)
      have h2 : ∀ q ∈ rest, 0 ≤ q.2 := fun q hq => h q (by simp [hq])
      simp only [sumValues, List.map_cons, List.sum_cons]
      have := ih h2
      simp only [sumValues] at this
      linarith

theorem getD_le_sumValues {α : Type} [DecidableEq α] :
    ∀ (l : List (α × ℚ)) (k : α), (∀ p ∈ l, 0 ≤ p.2) →
      getD l k 0 ≤ sumValues l := by
  intro l
  induction l with
  | nil => intro k _; simp [getD, sumValues]
  | cons p rest ih =>
      intro k h
      have h1 := h p (by simp)
      have h2 : ∀ q ∈ rest, 0 ≤ q.2 := fun q hq => h q (by simp [hq])
      have hrest : 0 ≤ sumValues rest := sumValues_nonneg rest h2
      have hih := ih k h2
      simp only [sumValues, List.map_cons, List.sum_cons] at *
      by_cases hk : p.1 = k
      · simp [getD, hk]
        linarith
      · simp [getD, hk]
        linarith

theorem setKey_nonneg {α : Type} [DecidableEq α]
    (l : List (α × ℚ)) (k : α) (v : ℚ)
    (h : ∀ p ∈ l, 0 ≤ p.2) (hv : 0 ≤ v) :
    ∀ p ∈ setKey l k v, 0 ≤ p.2 := by
  induction l with
  | nil => intro p hp; simp [setKey] at hp; simp [hp, hv]
  | cons q rest ih =>
      intro p hp
      by_cases hq : q.1 = k
      · simp [setKey, hq] at hp
        rcases hp with hp | hp
        · simp [hp, hv]
        · exact h p (by simp [hp])
      · simp [setKey, hq] at hp
        rcases hp with hp | hp
        · exact h p (by simp [hp])
        · exact ih (fun r hr => h r (by simp [hr])) p hp

theorem foldl_setKey_nonneg {α : Type} [DecidableEq α] :
    ∀ (l acc : List (α × ℚ)), (∀ p ∈ l, 0 ≤ p.2) → (∀ p ∈ acc, 0 ≤ p.2) →
      ∀ p ∈ l.foldl (fun acc p => setKey acc p.1 p.2) acc, 0 ≤ p.2 := by
  intro l
  induction l with
  | nil => intro acc _ hacc; simpa using hacc
  | cons q rest ih =>
      intro acc hl hacc
      simp only [List.foldl_cons]
      exact ih (setKey acc q.1 q.2) (fun p hp => hl p (by simp [hp]))
        (setKey_nonneg acc q.1 q.2 hacc (hl q (by simp)))

theorem dictOfList_nonneg {α : Type} [DecidableEq α]
    (l : List (α × ℚ)) (h : ∀ p ∈ l, 0 ≤ p.2) :
    ∀ p ∈ dictOfList l, 0 ≤ p.2 :=
  foldl_setKey_nonneg l [] h (by simp)

/-- Values of `mapValues (· / t)` at a key. -/
theorem getD_mapValues_div {α : Type} [DecidableEq α]
    (l : List (α × ℚ)) (k : α) (t : ℚ) :
    getD (mapValues (fun x => x / t) l) k 0 = getD l k 0 / t := by
  induction l with
  | nil => simp [mapValues, getD]
  | cons p rest ih =>
      by_cases h : p.1 = k
      · simp [mapValues, getD, h]
      · have hih := ih
        simp only [mapValues] at hih ⊢
        simp [getD, h, hih]

theorem sumValues_mapValues_div {α : Type}
    (l : List (α × ℚ)) (t : ℚ) :
    sumValues (mapValues (fun x => x / t) l) = sumValues l / t := by
  induction l with
  | nil => simp [mapValues, sumValues]
  | cons p rest ih =>
      simp only [mapValues, sumValues, List.map_cons, List.sum_cons] at *
      rw [ih]
      ring

/-! ### Data model (`engine/datatypes.py`) -/

/-- Stage weight configuration row. -/
structure StageWeight where
  phase : String
  stage : String
  weight : ℚ
deriving DecidableEq

/-- Stage default presales percentage row. -/
structure StagePresales where
  stage : String
  default_pct : ℚ
deriving DecidableEq

/-- Activity definition within a stage. -/
structure ActivityDef where
  stage : String
  activity : String
  weight : ℚ
  is_presales : Bool
deriving DecidableEq

/-- Role mix percentage for a stage. -/
structure RoleMix where
  stage : String
  role : String
  pct : ℚ
deriving DecidableEq

/-- Rate card for a role and locale. -/
structure RateCard where
  role : String
  locale : String
  onshore : ℚ
  offshore : ℚ
  partner : ℚ
deriving DecidableEq

/-- Delivery mix percentages (global when `role = none`, else per-role). -/
structure DeliveryMix where
  role : Option String
  onshore_pct : ℚ
  offshore_pct : ℚ
  partner_pct : ℚ
deriving DecidableEq

/-- Add-on tier definition with role distribution. -/
structure AddOnTier where
  name : String
  unit_hours : ℚ
  role_distribution : List (String × ℚ)
  scale_by_size : Bool
deriving DecidableEq

/-- Add-on package with multiple tiers. -/
structure AddOnPackage where
  name : String
  tiers : List AddOnTier
  scale_by_size : Bool
deriving DecidableEq

/-- Product-specific role enablement and multiplier row. -/
structure ProductRoleToggle where
  role : String
  banner_enabled : Bool
  colleague_enabled : Bool
  multiplier : ℚ
deriving DecidableEq

/-- Complete configuration data loaded from the workbook. -/
structure ConfigurationData where
  baseline_hours : ℚ
  stage_weights : List StageWeight
  stages_presales : List StagePresales
  activities : List ActivityDef
  role_mix : List RoleMix
  rates : List RateCard
  delivery_mix : List DeliveryMix
  addon_packages : List AddOnPackage
  product_role_map : List ProductRoleToggle
  size_multipliers : List (String × ℚ)
  delivery_type_multipliers : List (String × ℚ)
  addon_caps : List (String × List (String × ℚ))
  product_delivery_type_multipliers : List (String × List (String × ℚ))
deriving DecidableEq

/-- User inputs for estimation (`EstimationInputs`). -/
structure EstimationInputs where
  product : String
  delivery_type : String
  size_band : String
  locale : String
  maturity_factor : ℚ
  integrations_count : ℕ
  integrations_simple_pct : ℚ
  integrations_standard_pct : ℚ
  integrations_complex_pct : ℚ
  reports_count : ℕ
  reports_simple_pct : ℚ
  reports_standard_pct : ℚ
  reports_complex_pct : ℚ
  include_integrations : Bool
  include_reports : Bool
  include_degreeworks : Bool
  degreeworks_include_setup : Bool
  degreeworks_use_pve_calculator : Bool
  degreeworks_majors : ℕ
  degreeworks_minors : ℕ
  degreeworks_certificates : ℕ
  degreeworks_concentrations : ℕ
  degreeworks_catalog_years : ℕ
  degreeworks_pve_count : ℕ
  degreeworks_simple_pct : ℚ
  degreeworks_standard_pct : ℚ
  degreeworks_complex_pct : ℚ
  sprint0_uplift_pct : ℚ
  degreeworks_cap_enabled : Bool
  degreeworks_cap_hours : Option ℚ
deriving DecidableEq

/-- Hours breakdown by stage: three parallel stage→hours dicts. -/
structure StageHours where
  stage_hours : List (String × ℚ)
  presales_hours : List (String × ℚ)
  delivery_hours : List (String × ℚ)
deriving DecidableEq

/-- Hours and costs for one role-stage row. -/
structure RoleHours where
  role : String
  stage : String
  total_hours : ℚ
  onshore_hours : ℚ
  offshore_hours : ℚ
  partner_hours : ℚ
  onshore_cost : ℚ
  offshore_cost : ℚ
  partner_cost : ℚ
  total_cost : ℚ
  blended_rate : ℚ
deriving DecidableEq

/-! ### Base estimation engine (`engine/estimator.py`) -/

/-- `EstimationEngine.get_size_multiplier` /
`self.config.size_multipliers.get(inputs.size_band, 1.0)`. -/
def sizeMultiplier (cfg : ConfigurationData) (size_band : String) : ℚ :=
  getD cfg.size_multipliers size_band 1

/-- Product-specific delivery multiplier with fallback to the global one
(`estimator.py` lines 24-32). -/
def effectiveDeliveryMult (cfg : ConfigurationData)
    (product delivery_type : String) : ℚ :=
  match getOpt (getD cfg.product_delivery_type_multipliers product []) delivery_type with
  | some m => m
  | none => getD cfg.delivery_type_multipliers delivery_type 1

/-- Step-1 adjusted base hours (`estimator.py` lines 34-39). -/
def adjustedBase (cfg : ConfigurationData) (inputs : EstimationInputs) : ℚ :=
  cfg.baseline_hours * sizeMultiplier cfg inputs.size_band *
    effectiveDeliveryMult cfg inputs.product inputs.delivery_type *
    inputs.maturity_factor

/-- The working stage-weight dict `{sw.stage: sw.weight for sw in stage_weights}`. -/
def baseWeights (cfg : ConfigurationData) : List (String × ℚ) :=
  dictOfList (cfg.stage_weights.map fun sw => (sw.stage, sw.weight))

/-- Sprint 0 uplift transfer on the stage-weight dict
(`estimator.py` lines 44-60). -/
def upliftWeights (w0 : List (String × ℚ)) (uplift : ℚ) : List (String × ℚ) :=
  if 0 < uplift then
    let donorTotal := getD w0 "Plan" 0 + getD w0 "Configure" 0
    if 0 < donorTotal then
      let w1 := setKey w0 "Sprint 0" (getD w0 "Sprint 0" 0 + uplift)
      let w2 := setKey w1 "Plan"
        (max (getD w1 "Plan" 0 - uplift * (getD w1 "Plan" 0) / donorTotal) 0)
      let w3 := setKey w2 "Configure"
        (max (getD w2 "Configure" 0 - uplift * (getD w2 "Configure" 0) / donorTotal) 0)
      mapValues (fun x => x / sumValues w3) w3
    else w0
  else w0

/-- `EstimationEngine._calculate_presales_percentage`. -/
def calculatePresalesPercentage (cfg : ConfigurationData) (stage : String) : ℚ :=
  let sa := cfg.activities.filter fun a => a.stage == stage
  let fallback :=
    match cfg.stages_presales.find? (fun sp => sp.stage == stage) with
    | some sp => sp.default_pct
    | none => 0
  if sa.length > 0 then
    let tw := (sa.map (·.weight)).sum
    if 0 < tw then ((sa.filter (·.is_presales)).map (·.weight)).sum / tw
    else fallback
  else fallback

/-- `EstimationEngine.estimate_base_n2s`. -/
def estimate_base_n2s (cfg : ConfigurationData) (inputs : EstimationInputs) :
    StageHours :=
  let adjusted := adjustedBase cfg inputs
  let w := upliftWeights (baseWeights cfg) inputs.sprint0_uplift_pct
  let stage_hours := w.map fun p => (p.1, adjusted * p.2)
  { stage_hours := stage_hours
    presales_hours :=
      stage_hours.map fun p => (p.1, p.2 * calculatePresalesPercentage cfg p.1)
    delivery_hours :=
      stage_hours.map fun p =>
        (p.1, p.2 - p.2 * calculatePresalesPercentage cfg p.1) }

/-! ### Lemmas about the base estimator -/

theorem getD_nonneg {α : Type} [DecidableEq α] :
    ∀ (l : List (α × ℚ)) (k : α), (∀ p ∈ l, 0 ≤ p.2) → 0 ≤ getD l k 0 := by
  intro l
  induction l with
  | nil => intro k _; simp [getD]
  | cons p rest ih =>
      intro k h
      by_cases hk : p.1 = k
      · simp [getD, hk]
        exact h p (by simp)
      · simp [getD, hk]
        exact ih k fun q hq => h q (by simp [hq])

theorem sumValues_map_mul {α : Type} (l : List (α × ℚ)) (a : ℚ) :
    sumValues (l.map fun p => (p.1, a * p.2)) = a * sumValues l := by
  induction l with
  | nil => simp [sumValues]
  | cons p rest ih =>
      simp only [sumValues, List.map_cons, List.sum_cons] at *
      rw [ih]
      ring

theorem getD_map_pair_add {f g : String → ℚ → ℚ}
    (hfg : ∀ k v, f k v + g k v = v) :
    ∀ (l : List (String × ℚ)) (s : String),
      getD (l.map fun p => (p.1, f p.1 p.2)) s 0 +
        getD (l.map fun p => (p.1, g p.1 p.2)) s 0 = getD l s 0 := by
  intro l
  induction l with
  | nil => intro s; simp [getD]
  | cons p rest ih =>
      intro s
      by_cases hs : p.1 = s
      · simp [getD, hs, hfg]
      · simp [getD, hs, ih]

theorem sumValues_map_pair_add {f g : String → ℚ → ℚ}
    (hfg : ∀ k v, f k v + g k v = v) :
    ∀ l : List (String × ℚ),
      sumValues (l.map fun p => (p.1, g p.1 p.2)) +
        sumValues (l.map fun p => (p.1, f p.1 p.2)) = sumValues l := by
  intro l
  induction l with
  | nil => simp [sumValues]
  | cons p rest ih =>
      simp only [sumValues, List.map_cons, List.sum_cons] at *
      have := hfg p.1 p.2
      linarith

/-- The dict after the three uplift-transfer writes has positive value sum
once the Sprint 0 entry is positive and everything else is nonnegative. -/
theorem triple_setKey_sum_pos (w : List (String × ℚ)) (v1 v2 v3 : ℚ)
    (hnn : ∀ p ∈ w, 0 ≤ p.2) (h1 : 0 < v1) (h2 : 0 ≤ v2) (h3 : 0 ≤ v3) :
    0 < sumValues (setKey (setKey (setKey w "Sprint 0" v1) "Plan" v2)
      "Configure" v3) := by
  have hA := setKey_nonneg w "Sprint 0" v1 hnn (le_of_lt h1)
  have hB := setKey_nonneg _ "Plan" v2 hA h2
  have hC := setKey_nonneg _ "Configure" v3 hB h3
  have hg : getD (setKey (setKey (setKey w "Sprint 0" v1) "Plan" v2)
      "Configure" v3) "Sprint 0" 0 = v1 := by
    rw [getD_setKey_ne _ _ _ _ _ (by decide),
      getD_setKey_ne _ _ _ _ _ (by decide), getD_setKey_self]
  have hle := getD_le_sumValues _ "Sprint 0" hC
  rw [hg] at hle
  linarith

/-- After the Sprint 0 uplift transfer the weights still sum to exactly 1. -/
theorem sumValues_upliftWeights (w : List (String × ℚ)) (u : ℚ)
    (hsum : sumValues w = 1) (hnn : ∀ p ∈ w, 0 ≤ p.2) (hu : 0 ≤ u) :
    sumValues (upliftWeights w u) = 1 := by
  by_cases hpos : 0 < u
  · by_cases hdt : 0 < getD w "Plan" 0 + getD w "Configure" 0
    · have hs0 : 0 ≤ getD w "Sprint 0" 0 := getD_nonneg w _ hnn
      simp only [upliftWeights, if_pos hpos, if_pos hdt]
      rw [sumValues_mapValues_div]
      exact div_self (ne_of_gt (triple_setKey_sum_pos w _ _ _ hnn
        (by linarith) (le_max_right _ 0) (le_max_right _ 0)))
    · simp only [upliftWeights, if_pos hpos, if_neg hdt]; exact hsum
  · simp only [upliftWeights, if_neg hpos]; exact hsum

/-- C1: with stage weights summing to 1, the total of the allocated stage
hours equals `baseline × size_mult × effective_delivery_mult × maturity`,
within 0.01 absolute tolerance (in fact exactly, over exact arithmetic).
The effective delivery multiplier prefers the product-specific
`(product, delivery_type)` entry and falls back to the global one. -/
theorem C1_base_total_matches_multipliers
    (cfg : ConfigurationData) (inputs : EstimationInputs)
    (hsum : sumValues (baseWeights cfg) = 1)
    (hnn : ∀ sw ∈ cfg.stage_weights, 0 ≤ sw.weight)
    (hu : 0 ≤ inputs.sprint0_uplift_pct) :
    |sumValues (estimate_base_n2s cfg inputs).stage_hours -
      cfg.baseline_hours * sizeMultiplier cfg inputs.size_band *
        effectiveDeliveryMult cfg inputs.product inputs.delivery_type *
        inputs.maturity_factor| ≤ 1 / 100 := by
  have hwnn : ∀ p ∈ baseWeights cfg, 0 ≤ p.2 := by
    apply dictOfList_nonneg
    intro p hp
    simp only [List.mem_map] at hp
    obtain ⟨sw, hsw, rfl⟩ := hp
    exact hnn sw hsw
  have hW : sumValues (upliftWeights (baseWeights cfg) inputs.sprint0_uplift_pct)
      = 1 := sumValues_upliftWeights _ _ hsum hwnn hu
  have htot : sumValues (estimate_base_n2s cfg inputs).stage_hours
      = adjustedBase cfg inputs := by
    simp only [estimate_base_n2s]
    rw [sumValues_map_mul, hW, mul_one]
  rw [htot]
  simp [adjustedBase]

/-- Concrete default-like configuration used by witnesses. -/
def cfgSmall : ConfigurationData where
  baseline_hours := 6700
  stage_weights :=
    [⟨"Plan & Discover", "Sprint 0", 3/50⟩, ⟨"Plan & Discover", "Plan", 1/10⟩,
     ⟨"Deliver", "Configure", 17/50⟩, ⟨"Deliver", "Test", 1/2⟩]
  stages_presales := [⟨"Sprint 0", 1/10⟩]
  activities := []
  role_mix := []
  rates := []
  delivery_mix := []
  addon_packages := []
  product_role_map := []
  size_multipliers := [("Medium", 1)]
  delivery_type_multipliers := [("Net New", 1)]
  addon_caps := []
  product_delivery_type_multipliers := []

/-- Default scenario inputs (`EstimationInputs` defaults in `datatypes.py`). -/
def inputsDefault : EstimationInputs where
  product := "Banner"
  delivery_type := "Net New"
  size_band := "Medium"
  locale := "US"
  maturity_factor := 1
  integrations_count := 30
  integrations_simple_pct := 3/5
  integrations_standard_pct := 3/10
  integrations_complex_pct := 1/10
  reports_count := 40
  reports_simple_pct := 1/2
  reports_standard_pct := 7/20
  reports_complex_pct := 3/20
  include_integrations := false
  include_reports := false
  include_degreeworks := false
  degreeworks_include_setup := true
  degreeworks_use_pve_calculator := true
  degreeworks_majors := 0
  degreeworks_minors := 0
  degreeworks_certificates := 0
  degreeworks_concentrations := 0
  degreeworks_catalog_years := 1
  degreeworks_pve_count := 0
  degreeworks_simple_pct := 1/2
  degreeworks_standard_pct := 7/20
  degreeworks_complex_pct := 3/20
  sprint0_uplift_pct := 1/50
  degreeworks_cap_enabled := true
  degreeworks_cap_hours := none

/-- Witness for C1 at a concrete configuration and the default inputs. -/
theorem C1_witness :
    |sumValues (estimate_base_n2s cfgSmall inputsDefault).stage_hours -
      cfgSmall.baseline_hours * sizeMultiplier cfgSmall inputsDefault.size_band *
        effectiveDeliveryMult cfgSmall inputsDefault.product
          inputsDefault.delivery_type *
        inputsDefault.maturity_factor| ≤ 1 / 100 :=
  C1_base_total_matches_multipliers cfgSmall inputsDefault
    (by simp [sumValues, baseWeights, dictOfList, setKey, cfgSmall]; norm_num)
    (by intro sw hsw; fin_cases hsw <;> norm_num)
    (by norm_num [inputsDefault])

/-- C2: for every configuration, inputs and stage, the presales and delivery
hours of `estimate_base_n2s` add up exactly to the stage hours, and hence the
presales and delivery totals add up exactly to the stage-hour total. -/
theorem C2_presales_delivery_split_exact
    (cfg : ConfigurationData) (inputs : EstimationInputs) :
    (∀ s : String,
      getD (estimate_base_n2s cfg inputs).presales_hours s 0 +
        getD (estimate_base_n2s cfg inputs).delivery_hours s 0 =
        getD (estimate_base_n2s cfg inputs).stage_hours s 0) ∧
    sumValues (estimate_base_n2s cfg inputs).delivery_hours +
        sumValues (estimate_base_n2s cfg inputs).presales_hours =
      sumValues (estimate_base_n2s cfg inputs).stage_hours := by
  constructor
  · intro s
    simp only [estimate_base_n2s]
    exact getD_map_pair_add
      (f := fun k v => v * calculatePresalesPercentage cfg k)
      (g := fun k v => v - v * calculatePresalesPercentage cfg k)
      (fun k v => by ring) _ s
  · simp only [estimate_base_n2s]
    exact sumValues_map_pair_add
      (f := fun k v => v * calculatePresalesPercentage cfg k)
      (g := fun k v => v - v * calculatePresalesPercentage cfg k)
      (fun k v => by ring) _

theorem getD_map_mul {α : Type} [DecidableEq α]
    (l : List (α × ℚ)) (a : ℚ) (k : α) :
    getD (l.map fun p => (p.1, a * p.2)) k 0 = a * getD l k 0 := by
  induction l with
  | nil => simp [getD]
  | cons p rest ih =>
      by_cases h : p.1 = k
      · simp [getD, h]
      · simp [getD, h, ih]

/-- Behaviour of the renormalized uplift weights in the branch where both
guards hold and no donor is clamped to zero: the weights sum to exactly 1
and the `Sprint 0` / `Plan` / `Configure` entries take their exact
transferred values. -/
theorem upliftWeights_getD_unclamped (w : List (String × ℚ)) (u : ℚ)
    (hsum : sumValues w = 1) (hu0 : 0 < u)
    (hP : 0 < getD w "Plan" 0) (hC : 0 < getD w "Configure" 0)
    (hcl : u ≤ getD w "Plan" 0 + getD w "Configure" 0) :
    sumValues (upliftWeights w u) = 1 ∧
    getD (upliftWeights w u) "Sprint 0" 0 = getD w "Sprint 0" 0 + u ∧
    getD (upliftWeights w u) "Plan" 0 =
      getD w "Plan" 0 -
        u * getD w "Plan" 0 / (getD w "Plan" 0 + getD w "Configure" 0) ∧
    getD (upliftWeights w u) "Configure" 0 =
      getD w "Configure" 0 -
        u * getD w "Configure" 0 / (getD w "Plan" 0 + getD w "Configure" 0) := by
  have hdt : 0 < getD w "Plan" 0 + getD w "Configure" 0 := by linarith
  have hdt' : getD w "Plan" 0 + getD w "Configure" 0 ≠ 0 := ne_of_gt hdt
  simp only [upliftWeights, if_pos hu0, if_pos hdt]
  have hW1P : getD (setKey w "Sprint 0" (getD w "Sprint 0" 0 + u)) "Plan" 0
      = getD w "Plan" 0 := getD_setKey_ne _ _ _ _ _ (by decide)
  have hW1C : getD (setKey w "Sprint 0" (getD w "Sprint 0" 0 + u)) "Configure" 0
      = getD w "Configure" 0 := getD_setKey_ne _ _ _ _ _ (by decide)
  rw [hW1P]
  have hvP : 0 ≤ getD w "Plan" 0 -
      u * getD w "Plan" 0 / (getD w "Plan" 0 + getD w "Configure" 0) := by
    rw [sub_nonneg, div_le_iff hdt]
    nlinarith
  rw [max_eq_left hvP]
  have hW2C : getD (setKey (setKey w "Sprint 0" (getD w "Sprint 0" 0 + u))
      "Plan" (getD w "Plan" 0 -
        u * getD w "Plan" 0 / (getD w "Plan" 0 + getD w "Configure" 0)))
      "Configure" 0 = getD w "Configure" 0 := by
    rw [getD_setKey_ne _ _ _ _ _ (by decide), hW1C]
  rw [hW2C]
  have hvC : 0 ≤ getD w "Configure" 0 -
      u * getD w "Configure" 0 / (getD w "Plan" 0 + getD w "Configure" 0) := by
    rw [sub_nonneg, div_le_iff hdt]
    nlinarith
  rw [max_eq_left hvC]
  have hsum3 : sumValues (setKey (setKey (setKey w "Sprint 0"
      (getD w "Sprint 0" 0 + u)) "Plan"
      (getD w "Plan" 0 -
        u * getD w "Plan" 0 / (getD w "Plan" 0 + getD w "Configure" 0)))
      "Configure"
      (getD w "Configure" 0 -
        u * getD w "Configure" 0 / (getD w "Plan" 0 + getD w "Configure" 0)))
      = 1 := by
    rw [sumValues_setKey, hW2C, sumValues_setKey, hW1P, sumValues_setKey, hsum]
    field_simp
    ring
  refine ⟨?_, ?_, ?_, ?_⟩
  · rw [sumValues_mapValues_div, hsum3, div_one]
  · rw [getD_mapValues_div, hsum3, div_one]
    rw [getD_setKey_ne _ _ _ _ _ (by decide),
      getD_setKey_ne _ _ _ _ _ (by decide), getD_setKey_self]
  · rw [getD_mapValues_div, hsum3, div_one]
    rw [getD_setKey_ne _ _ _ _ _ (by decide), getD_setKey_self]
  · rw [getD_mapValues_div, hsum3, div_one, getD_setKey_self]

/-- C5 (amended): for uplift in (0, 0.05] that does not exceed the combined
positive donor weight (so no donor is clamped to zero), the post-uplift
weights sum to exactly 1, the `Sprint 0` hours grow by exactly
`adjusted_base × uplift` relative to the zero-uplift run, and the combined
`Plan` + `Configure` hours shrink by exactly the same positive amount. -/
theorem C5_sprint0_uplift_transfer
    (cfg : ConfigurationData) (inputs : EstimationInputs)
    (hsum : sumValues (baseWeights cfg) = 1)
    (hP : 0 < getD (baseWeights cfg) "Plan" 0)
    (hC : 0 < getD (baseWeights cfg) "Configure" 0)
    (hu0 : 0 < inputs.sprint0_uplift_pct)
    (hu5 : inputs.sprint0_uplift_pct ≤ 1 / 20)
    (hcl : inputs.sprint0_uplift_pct ≤
      getD (baseWeights cfg) "Plan" 0 + getD (baseWeights cfg) "Configure" 0)
    (hab : 0 < adjustedBase cfg inputs) :
    sumValues (upliftWeights (baseWeights cfg) inputs.sprint0_uplift_pct) = 1 ∧
    getD (estimate_base_n2s cfg inputs).stage_hours "Sprint 0" 0 =
      getD (estimate_base_n2s cfg
          { inputs with sprint0_uplift_pct := 0 }).stage_hours "Sprint 0" 0 +
        adjustedBase cfg inputs * inputs.sprint0_uplift_pct ∧
    getD (estimate_base_n2s cfg inputs).stage_hours "Plan" 0 +
        getD (estimate_base_n2s cfg inputs).stage_hours "Configure" 0 =
      (getD (estimate_base_n2s cfg
          { inputs with sprint0_uplift_pct := 0 }).stage_hours "Plan" 0 +
        getD (estimate_base_n2s cfg
          { inputs with sprint0_uplift_pct := 0 }).stage_hours "Configure" 0) -
        adjustedBase cfg inputs * inputs.sprint0_uplift_pct ∧
    0 < adjustedBase cfg inputs * inputs.sprint0_uplift_pct := by
  have hdt : 0 < getD (baseWeights cfg) "Plan" 0 +
      getD (baseWeights cfg) "Configure" 0 := by linarith
  have hdt' : getD (baseWeights cfg) "Plan" 0 +
      getD (baseWeights cfg) "Configure" 0 ≠ 0 := ne_of_gt hdt
  obtain ⟨hS1, hS, hPl, hCf⟩ := upliftWeights_getD_unclamped (baseWeights cfg)
    inputs.sprint0_uplift_pct hsum hu0 hP hC hcl
  have hzero : upliftWeights (baseWeights cfg) (0 : ℚ) = baseWeights cfg := by
    simp [upliftWeights]
  have hadj : adjustedBase cfg { inputs with sprint0_uplift_pct := 0 } =
      adjustedBase cfg inputs := rfl
  refine ⟨hS1, ?_, ?_, mul_pos hab hu0⟩
  · simp only [estimate_base_n2s, hzero, hadj]
    rw [getD_map_mul, getD_map_mul, hS]
    ring
  · simp only [estimate_base_n2s, hzero, hadj]
    rw [getD_map_mul, getD_map_mul, getD_map_mul, getD_map_mul, hPl, hCf]
    field_simp
    ring

/-- Configuration with positive but tiny donor weights (`Plan`, `Configure`),
used to refute C5 as stated: the 0.02 uplift exceeds the combined donor
weight 0.01, both donors clamp to 0 and the renormalization redistributes
hours across all stages. -/
def cfgC5 : ConfigurationData where
  baseline_hours := 6700
  stage_weights :=
    [⟨"Plan & Discover", "Sprint 0", 3/50⟩, ⟨"Plan & Discover", "Plan", 1/200⟩,
     ⟨"Deliver", "Configure", 1/200⟩, ⟨"Deliver", "Test", 93/100⟩]
  stages_presales := []
  activities := []
  role_mix := []
  rates := []
  delivery_mix := []
  addon_packages := []
  product_role_map := []
  size_multipliers := [("Medium", 1)]
  delivery_type_multipliers := [("Net New", 1)]
  addon_caps := []
  product_delivery_type_multipliers := []

/-- Counterexample to C5 as stated: with donor weights present and positive
(0.005 each) and uplift 0.02 ∈ [0, 0.05], the `Sprint 0` hours increase
(by 12998/101 ≈ 128.7 h) differs from the combined `Plan` + `Configure`
decrease (67 h) — far beyond renormalization rounding. -/
theorem C5_counterexample :
    getD (estimate_base_n2s cfgC5 inputsDefault).stage_hours "Sprint 0" 0 -
        getD (estimate_base_n2s cfgC5
          { inputsDefault with
              sprint0_uplift_pct := 0 }).stage_hours "Sprint 0" 0 ≠
      (getD (estimate_base_n2s cfgC5
          { inputsDefault with sprint0_uplift_pct := 0 }).stage_hours "Plan" 0 +
        getD (estimate_base_n2s cfgC5
          { inputsDefault with
              sprint0_uplift_pct := 0 }).stage_hours "Configure" 0) -
      (getD (estimate_base_n2s cfgC5 inputsDefault).stage_hours "Plan" 0 +
        getD (estimate_base_n2s cfgC5 inputsDefault).stage_hours
          "Configure" 0) := by
  simp [estimate_base_n2s, upliftWeights, baseWeights, dictOfList, setKey,
    getD, mapValues, sumValues, adjustedBase, sizeMultiplier,
    effectiveDeliveryMult, getOpt, max_def, apply_ite, cfgC5, inputsDefault]
  norm_num

/-- Witness for the amended C5 at a concrete configuration where the uplift
does not exceed the combined donor weight. -/
theorem C5_witness :
    sumValues (upliftWeights (baseWeights cfgSmall)
      inputsDefault.sprint0_uplift_pct) = 1 ∧
    getD (estimate_base_n2s cfgSmall inputsDefault).stage_hours "Sprint 0" 0 =
      getD (estimate_base_n2s cfgSmall
          { inputsDefault with
              sprint0_uplift_pct := 0 }).stage_hours "Sprint 0" 0 +
        adjustedBase cfgSmall inputsDefault *
          inputsDefault.sprint0_uplift_pct ∧
    getD (estimate_base_n2s cfgSmall inputsDefault).stage_hours "Plan" 0 +
        getD (estimate_base_n2s cfgSmall inputsDefault).stage_hours
          "Configure" 0 =
      (getD (estimate_base_n2s cfgSmall
          { inputsDefault with sprint0_uplift_pct := 0 }).stage_hours "Plan" 0 +
        getD (estimate_base_n2s cfgSmall
          { inputsDefault with
              sprint0_uplift_pct := 0 }).stage_hours "Configure" 0) -
        adjustedBase cfgSmall inputsDefault *
          inputsDefault.sprint0_uplift_pct ∧
    0 < adjustedBase cfgSmall inputsDefault * inputsDefault.sprint0_uplift_pct :=
  C5_sprint0_uplift_transfer cfgSmall inputsDefault
    (by simp [sumValues, baseWeights, dictOfList, setKey, cfgSmall]; norm_num)
    (by simp [baseWeights, dictOfList, setKey, getD, cfgSmall])
    (by simp [baseWeights, dictOfList, setKey, getD, cfgSmall])
    (by norm_num [inputsDefault])
    (by norm_num [inputsDefault])
    (by simp [baseWeights, dictOfList, setKey, getD, cfgSmall, inputsDefault]
        norm_num)
    (by simp [adjustedBase, sizeMultiplier, effectiveDeliveryMult, getOpt,
          getD, cfgSmall, inputsDefault])

/-! ### Pricing and role expansion engine (`engine/pricing.py`) -/

/-- Python `str.lower()` (per-character, faithful for the ASCII names the
configuration uses). -/
def pyLower (s : String) : String := ⟨s.data.map Char.toLower⟩

/-- Contiguous-sublist test used to model Python `pat in s`. -/
def hasSubAux : List Char → List Char → Bool
  | s, pat =>
    pat.isPrefixOf s ||
      (match s with
       | [] => false
       | _ :: t => hasSubAux t pat)

/-- Python `pat in s` on strings. -/
def pyContainsSub (s pat : String) : Bool := hasSubAux s.data pat.data

/-- Python `s.startswith(pat)`. -/
def pyStartsWith (s pat : String) : Bool := pat.data.isPrefixOf s.data

/-- Engine-local caches built by `PricingEngine._build_caches`. -/
structure PricingState where
  rateCache : List ((String × String) × RateCard)
  mixCache : List (Option String × DeliveryMix)
deriving DecidableEq

/-- `PricingEngine.__init__` / `_build_caches`. -/
def buildCaches (cfg : ConfigurationData) : PricingState where
  rateCache := dictOfList (cfg.rates.map fun r => ((r.role, r.locale), r))
  mixCache := dictOfList (cfg.delivery_mix.map fun dm => (dm.role, dm))

/-- `PricingEngine._get_enabled_roles`. -/
def getEnabledRoles (cfg : ConfigurationData) (product : String) : List String :=
  let enabled := (cfg.product_role_map.filter fun rt =>
    (pyLower product == "banner" && rt.banner_enabled) ||
      (pyLower product == "colleague" && rt.colleague_enabled)).map (·.role)
  if enabled.isEmpty then (cfg.role_mix.map (·.role)).dedup else enabled

/-- `PricingEngine._get_stage_roles`. -/
def getStageRoles (cfg : ConfigurationData) (stage : String) : List String :=
  (cfg.role_mix.filter fun rm => rm.stage == stage).map (·.role)

/-- `PricingEngine._get_role_percentage`. -/
def getRolePercentage (cfg : ConfigurationData) (stage role : String) : ℚ :=
  match cfg.role_mix.find? (fun rm => rm.stage == stage && rm.role == role) with
  | some rm => rm.pct
  | none => 0

/-- `PricingEngine._get_product_multiplier`. -/
def getProductMultiplier (cfg : ConfigurationData) (product role : String) : ℚ :=
  match cfg.product_role_map.find? (fun rt => rt.role == role) with
  | some rt =>
      if (pyLower product == "banner" && rt.banner_enabled) ||
          (pyLower product == "colleague" && rt.colleague_enabled) then
        rt.multiplier
      else 0
  | none => 1

/-- `PricingEngine._get_delivery_split`. -/
def getDeliverySplit (st : PricingState) (role : String) : DeliveryMix :=
  match getOpt st.mixCache (some role) with
  | some dm => dm
  | none =>
      match getOpt st.mixCache none with
      | some dm => dm
      | none => ⟨none, 7/10, 1/5, 1/10⟩

/-- `PricingEngine._get_rates`. -/
def getRates (st : PricingState) (role locale : String) : RateCard :=
  match getOpt st.rateCache (role, locale) with
  | some rc => rc
  | none =>
      match getOpt st.rateCache (role, "US") with
      | some rc => rc
      | none => ⟨role, locale, 100, 50, 75⟩

/-- Body of the per-role loop of
`PricingEngine.calculate_role_hours_and_costs` (lines 60-109). -/
def baseRoleRow (cfg : ConfigurationData) (st : PricingState)
    (product locale stage role : String) (delivery_hours : ℚ) :
    Option RoleHours :=
  if ¬ (getEnabledRoles cfg product).contains role then none
  else
    let role_pct := getRolePercentage cfg stage role
    if role_pct ≤ 0 then none
    else
      let pm := getProductMultiplier cfg product role
      let total_hours := delivery_hours * role_pct * pm
      if total_hours ≤ 0 then none
      else
        let split := getDeliverySplit st role
        let onshore_hours := total_hours * split.onshore_pct
        let offshore_hours := total_hours * split.offshore_pct
        let partner_hours := total_hours * split.partner_pct
        let rates := getRates st role locale
        let onshore_cost := onshore_hours * rates.onshore
        let offshore_cost := offshore_hours * rates.offshore
        let partner_cost := partner_hours * rates.partner
        let total_cost := onshore_cost + offshore_cost + partner_cost
        some { role := role, stage := stage, total_hours := total_hours,
               onshore_hours := onshore_hours, offshore_hours := offshore_hours,
               partner_hours := partner_hours, onshore_cost := onshore_cost,
               offshore_cost := offshore_cost, partner_cost := partner_cost,
               total_cost := total_cost,
               blended_rate :=
                 if 0 < total_hours then total_cost / total_hours else 0 }

/-- `PricingEngine.calculate_role_hours_and_costs`. -/
def calculate_role_hours_and_costs (cfg : ConfigurationData) (st : PricingState)
    (sh : StageHours) (inputs : EstimationInputs) : List RoleHours :=
  sh.delivery_hours.flatMap fun p =>
    if p.2 ≤ 0 then []
    else (getStageRoles cfg p.1).filterMap fun role =>
      baseRoleRow cfg st inputs.product inputs.locale p.1 role p.2

/-- Body of the per-role loop of `AddOnEngine._create_role_hours`
(`addons.py` lines 288-330). -/
def addonRoleRow (cfg : ConfigurationData) (st : PricingState)
    (product locale stage role : String) (hours : ℚ) : Option RoleHours :=
  if ¬ (getEnabledRoles cfg product).contains role ∨ hours ≤ 0 then none
  else
    let pm := getProductMultiplier cfg product role
    let total_hours := hours * pm
    if total_hours ≤ 0 then none
    else
      let split := getDeliverySplit st role
      let onshore_hours := total_hours * split.onshore_pct
      let offshore_hours := total_hours * split.offshore_pct
      let partner_hours := total_hours * split.partner_pct
      let rates := getRates st role locale
      let onshore_cost := onshore_hours * rates.onshore
      let offshore_cost := offshore_hours * rates.offshore
      let partner_cost := partner_hours * rates.partner
      let total_cost := onshore_cost + offshore_cost + partner_cost
      some { role := role, stage := stage, total_hours := total_hours,
             onshore_hours := onshore_hours, offshore_hours := offshore_hours,
             partner_hours := partner_hours, onshore_cost := onshore_cost,
             offshore_cost := offshore_cost, partner_cost := partner_cost,
             total_cost := total_cost,
             blended_rate :=
               if 0 < total_hours then total_cost / total_hours else 0 }

/-- Stable insertion keeping the accumulator sorted by `total_cost`
descending; later-inserted rows go after earlier rows with an equal or
larger key, exactly like Python's stable `sorted(..., reverse=True)`. -/
def insertByCostDesc (r : RoleHours) : List RoleHours → List RoleHours
  | [] => [r]
  | x :: xs =>
      if r.total_cost ≤ x.total_cost then x :: insertByCostDesc r xs
      else r :: x :: xs

/-- Python `sorted(rows, key=lambda x: x.total_cost, reverse=True)`
(stable sorts with the same key agree, so insertion sort is faithful). -/
def pySortByCostDesc (l : List RoleHours) : List RoleHours :=
  l.foldl (fun acc r => insertByCostDesc r acc) []

/-- `AddOnEngine._create_role_hours`. -/
def create_role_hours (cfg : ConfigurationData) (st : PricingState)
    (roleHoursDict : List (String × ℚ)) (stage : String)
    (inputs : EstimationInputs) : List RoleHours :=
  pySortByCostDesc (roleHoursDict.filterMap fun p =>
    addonRoleRow cfg st inputs.product inputs.locale stage p.1 p.2)

/-- Forget the package/stage label of a row, keeping every priced figure. -/
def eraseStage (r : RoleHours) : RoleHours := { r with stage := "" }

theorem insertByCostDesc_map (f : RoleHours → RoleHours)
    (hf : ∀ r, (f r).total_cost = r.total_cost) (r : RoleHours) :
    ∀ l : List RoleHours,
      insertByCostDesc (f r) (l.map f) = (insertByCostDesc r l).map f := by
  intro l
  induction l with
  | nil => simp [insertByCostDesc]
  | cons x xs ih =>
      simp only [List.map_cons, insertByCostDesc, hf]
      by_cases h : r.total_cost ≤ x.total_cost
      · simp [h, ih]
      · simp [h]

theorem pySortByCostDesc_map (f : RoleHours → RoleHours)
    (hf : ∀ r, (f r).total_cost = r.total_cost) :
    ∀ (l acc : List RoleHours),
      (l.map f).foldl (fun acc r => insertByCostDesc r acc) (acc.map f) =
        (l.foldl (fun acc r => insertByCostDesc r acc) acc).map f := by
  intro l
  induction l with
  | nil => intro acc; simp
  | cons x xs ih =>
      intro acc
      simp only [List.map_cons, List.foldl_cons]
      rw [insertByCostDesc_map f hf, ih]

/-- Relabelling the stage of an add-on row commutes with its construction:
the guards and priced figures never read the stage label. -/
theorem addonRoleRow_relabel (cfg : ConfigurationData) (st : PricingState)
    (product locale s1 s2 role : String) (h : ℚ) :
    addonRoleRow cfg st product locale s2 role h =
      Option.map (fun r => { r with stage := s2 })
        (addonRoleRow cfg st product locale s1 role h) := by
  by_cases hm : role ∈ getEnabledRoles cfg product
  · by_cases hh : h ≤ 0
    · simp [addonRoleRow, hm, hh]
    · by_cases ht : h * getProductMultiplier cfg product role ≤ 0
      · simp [addonRoleRow, hm, hh, ht]
      · simp [addonRoleRow, hm, hh, ht]
  · simp [addonRoleRow, hm]

/-- C8: a role with a given number of pre-split hours is priced identically
by the add-on role-pricing path (`_create_role_hours`) and by the base
role-expansion path (`calculate_role_hours_and_costs`); and two add-on
packages with the same role→hours profile produce the same priced rows up
to the package label. -/
theorem C8_addon_pricing_matches_base (cfg : ConfigurationData)
    (st : PricingState) (inputs : EstimationInputs) (stage role : String)
    (dh : ℚ) (d : List (String × ℚ)) (s1 s2 : String) (hdh : 0 < dh) :
    addonRoleRow cfg st inputs.product inputs.locale stage role
        (dh * getRolePercentage cfg stage role) =
      baseRoleRow cfg st inputs.product inputs.locale stage role dh ∧
    (create_role_hours cfg st d s1 inputs).map eraseStage =
      (create_role_hours cfg st d s2 inputs).map eraseStage := by
  constructor
  · by_cases hm : role ∈ getEnabledRoles cfg inputs.product
    · by_cases hp : getRolePercentage cfg stage role ≤ 0
      · have hh : dh * getRolePercentage cfg stage role ≤ 0 :=
          mul_nonpos_of_nonneg_of_nonpos (le_of_lt hdh) hp
        simp [addonRoleRow, baseRoleRow, hm, hp, hh]
      · have hh : ¬ dh * getRolePercentage cfg stage role ≤ 0 := by
          push_neg at hp ⊢
          exact mul_pos hdh hp
        simp [addonRoleRow, baseRoleRow, hm, hp, hh]
    · simp [addonRoleRow, baseRoleRow, hm]
  · have key : ∀ s : String,
        (create_role_hours cfg st d s inputs).map eraseStage =
          ((d.filterMap fun p =>
              addonRoleRow cfg st inputs.product inputs.locale s1 p.1 p.2)
            |> pySortByCostDesc
            |>.map eraseStage) := by
      intro s
      simp only [create_role_hours]
      have hrw : (d.filterMap fun p =>
          addonRoleRow cfg st inputs.product inputs.locale s p.1 p.2) =
          (d.filterMap fun p =>
            addonRoleRow cfg st inputs.product inputs.locale s1 p.1 p.2).map
            (fun r => { r with stage := s }) := by
        rw [List.map_filterMap]
        apply List.filterMap_congr
        intro p _
        exact addonRoleRow_relabel cfg st inputs.product inputs.locale s1 s
          p.1 p.2
      rw [hrw]
      have hsort := pySortByCostDesc_map (fun r => { r with stage := s })
        (fun r => rfl)
        (d.filterMap fun p =>
          addonRoleRow cfg st inputs.product inputs.locale s1 p.1 p.2) []
      simp only [pySortByCostDesc, List.map_nil] at hsort ⊢
      rw [hsort, List.map_map]
      rfl
    rw [key s1, key s2]

/-- Concrete pricing configuration used by witnesses. -/
def cfgPrice : ConfigurationData where
  baseline_hours := 100
  stage_weights := [⟨"Deliver", "Configure", 1⟩]
  stages_presales := []
  activities := []
  role_mix := [⟨"Configure", "Developer", 1/2⟩]
  rates := [⟨"Developer", "US", 100, 50, 75⟩]
  delivery_mix := [⟨none, 7/10, 1/5, 1/10⟩]
  addon_packages := []
  product_role_map := []
  size_multipliers := [("Medium", 1)]
  delivery_type_multipliers := [("Net New", 1)]
  addon_caps := []
  product_delivery_type_multipliers := []

/-- Witness for C8 at a concrete configuration. -/
theorem C8_witness :
    addonRoleRow cfgPrice (buildCaches cfgPrice) inputsDefault.product
        inputsDefault.locale "Configure" "Developer"
        (100 * getRolePercentage cfgPrice "Configure" "Developer") =
      baseRoleRow cfgPrice (buildCaches cfgPrice) inputsDefault.product
        inputsDefault.locale "Configure" "Developer" 100 ∧
    (create_role_hours cfgPrice (buildCaches cfgPrice) [("Developer", 10)]
        "Integrations" inputsDefault).map eraseStage =
      (create_role_hours cfgPrice (buildCaches cfgPrice) [("Developer", 10)]
        "Reports" inputsDefault).map eraseStage :=
  C8_addon_pricing_matches_base cfgPrice (buildCaches cfgPrice) inputsDefault
    "Configure" "Developer" 100 [("Developer", 10)] "Integrations" "Reports"
    (by norm_num)

/-! ### Add-on package calculator (`engine/addons.py`) -/

/-- `AddOnEngine._build_cache`. -/
def packageCache (cfg : ConfigurationData) : List (String × AddOnPackage) :=
  dictOfList (cfg.addon_packages.map fun p => (p.name, p))

/-- `AddOnEngine._empty_stage_hours`. -/
def emptyStageHours : StageHours := ⟨[], [], []⟩

/-- Per-tier hour totals of `_calculate_package` (lines 57-73). -/
def tierHoursDict (cfg : ConfigurationData) (pkg : AddOnPackage) (count : ℕ)
    (tier_mix : Option (List (String × ℚ))) (inputs : EstimationInputs) :
    List (String × ℚ) :=
  pkg.tiers.foldl (fun acc tier =>
    let mix : ℚ :=
      match tier_mix with
      | some tm => getD tm tier.name 0
      | none => 1
    let hours := (count : ℚ) * mix * tier.unit_hours
    let hours :=
      if tier.scale_by_size then hours * sizeMultiplier cfg inputs.size_band
      else hours
    setKey acc tier.name hours) []

/-- Role distribution of `_calculate_package` (lines 75-84). -/
def packageRoleHours (pkg : AddOnPackage) (tier_hours : List (String × ℚ)) :
    List (String × ℚ) :=
  pkg.tiers.foldl (fun acc tier =>
    if getD tier_hours tier.name 0 > 0 then
      tier.role_distribution.foldl
        (fun acc2 rp => addKey acc2 rp.1 (getD tier_hours tier.name 0 * rp.2))
        acc
    else acc) []

/-- `AddOnEngine._calculate_package`. -/
def calculate_package (cfg : ConfigurationData) (st : PricingState)
    (package_name : String) (count : ℕ)
    (tier_mix : Option (List (String × ℚ))) (inputs : EstimationInputs) :
    StageHours × List RoleHours :=
  if count ≤ 0 then (emptyStageHours, [])
  else
    match getOpt (packageCache cfg) package_name with
    | none => (emptyStageHours, [])
    | some pkg =>
        let tier_hours := tierHoursDict cfg pkg count tier_mix inputs
        let role_hours_dict := packageRoleHours pkg tier_hours
        let total_hours := sumValues role_hours_dict
        (⟨[(package_name, total_hours)], [(package_name, 0)],
          [(package_name, total_hours)]⟩,
         create_role_hours cfg st role_hours_dict package_name inputs)

/-- `AddOnEngine.calculate_integrations`. -/
def calculate_integrations (cfg : ConfigurationData) (st : PricingState)
    (inputs : EstimationInputs) : StageHours × List RoleHours :=
  if ¬ inputs.include_integrations then (emptyStageHours, [])
  else
    calculate_package cfg st "Integrations" inputs.integrations_count
      (some [("Simple", inputs.integrations_simple_pct),
             ("Standard", inputs.integrations_standard_pct),
             ("Complex", inputs.integrations_complex_pct)]) inputs

/-- `AddOnEngine.calculate_reports`. -/
def calculate_reports (cfg : ConfigurationData) (st : PricingState)
    (inputs : EstimationInputs) : StageHours × List RoleHours :=
  if ¬ inputs.include_reports then (emptyStageHours, [])
  else
    calculate_package cfg st "Reports" inputs.reports_count
      (some [("Simple", inputs.reports_simple_pct),
             ("Standard", inputs.reports_standard_pct),
             ("Complex", inputs.reports_complex_pct)]) inputs

/-- The derived PVE count (`calculate_degreeworks` lines 156-163). -/
def dwPveCount (inputs : EstimationInputs) : ℚ :=
  if inputs.degreeworks_use_pve_calculator then
    ((inputs.degreeworks_majors : ℚ) +
        (1/2) * ((inputs.degreeworks_minors : ℚ) +
          (inputs.degreeworks_certificates : ℚ) +
          (inputs.degreeworks_concentrations : ℚ))) *
      (inputs.degreeworks_catalog_years : ℚ)
  else (inputs.degreeworks_pve_count : ℚ)

/-- State threaded through the Degree Works tier loop. -/
structure DwAcc where
  setupDict : List (String × ℚ)
  pveDict : List (String × ℚ)
  stageDict : List (String × ℚ)
deriving DecidableEq

/-- Tier-name-based mix selection for PVE tiers (lines 192-200). -/
def dwTierMix (inputs : EstimationInputs) (tier : AddOnTier) : ℚ :=
  if pyContainsSub (pyLower tier.name) "simple" then
    inputs.degreeworks_simple_pct
  else if pyContainsSub (pyLower tier.name) "standard" then
    inputs.degreeworks_standard_pct
  else if pyContainsSub (pyLower tier.name) "complex" then
    inputs.degreeworks_complex_pct
  else 0

/-- One iteration of the Degree Works tier loop (lines 170-211). -/
def dwTierStep (cfg : ConfigurationData) (inputs : EstimationInputs)
    (pve_count : ℚ) (acc : DwAcc) (tier : AddOnTier) : DwAcc :=
  if pyLower tier.name == "setup" then
    if inputs.degreeworks_include_setup then
      let setup_hours := 1 * tier.unit_hours
      let setup_hours :=
        if tier.scale_by_size then
          setup_hours * sizeMultiplier cfg inputs.size_band
        else setup_hours
      { acc with
        setupDict := tier.role_distribution.foldl
          (fun d rp => addKey d rp.1 (setup_hours * rp.2)) acc.setupDict
        stageDict := setKey acc.stageDict "Degree Works – Setup" setup_hours }
    else acc
  else if pyStartsWith (pyLower tier.name) "pve" then
    if 0 < pve_count then
      let tier_total := pve_count * dwTierMix inputs tier * tier.unit_hours
      { acc with
        pveDict := tier.role_distribution.foldl
          (fun d rp => addKey d rp.1 (tier_total * rp.2)) acc.pveDict }
    else acc
  else acc

/-- The Setup/PVE dictionaries before the cap (lines 165-216). -/
def dwUncapped (cfg : ConfigurationData) (inputs : EstimationInputs)
    (pkg : AddOnPackage) : DwAcc :=
  pkg.tiers.foldl (dwTierStep cfg inputs (dwPveCount inputs)) ⟨[], [], []⟩

/-- The stage dict after adding the uncapped PVE total (lines 213-216). -/
def dwStage1 (cfg : ConfigurationData) (inputs : EstimationInputs)
    (pkg : AddOnPackage) : List (String × ℚ) :=
  if 0 < sumValues (dwUncapped cfg inputs pkg).pveDict then
    setKey (dwUncapped cfg inputs pkg).stageDict "Degree Works – PVEs"
      (sumValues (dwUncapped cfg inputs pkg).pveDict)
  else (dwUncapped cfg inputs pkg).stageDict

/-- `cap_value = inputs.degreeworks_cap_hours or size_cap` (line 225):
Python `or` treats an explicit override of `0.0` as falsy and falls back
to the size-band default. -/
def dwResolvedCap (cfg : ConfigurationData) (inputs : EstimationInputs) :
    Option ℚ :=
  let size_cap := getOpt (getD cfg.addon_caps "Degree Works" []) inputs.size_band
  match inputs.degreeworks_cap_hours with
  | some v => if v = 0 then size_cap else some v
  | none => size_cap

/-- The cap block of `calculate_degreeworks` (lines 218-236), acting on the
PVE role dict and the stage dict. -/
def dwCapped (cfg : ConfigurationData) (inputs : EstimationInputs)
    (pveDict stageDict : List (String × ℚ)) :
    List (String × ℚ) × List (String × ℚ) :=
  let total_setup := getD stageDict "Degree Works – Setup" 0
  match dwResolvedCap cfg inputs with
  | none => (pveDict, stageDict)
  | some cv =>
      if inputs.degreeworks_cap_enabled ∧ cv ≠ 0 then
        let total_pve := sumValues pveDict
        let allowance := max (cv - total_setup) 0
        if allowance < total_pve then
          let scl := if 0 < total_pve then allowance / total_pve else 0
          let pve2 := mapValues (fun x => x * scl) pveDict
          (pve2, setKey stageDict "Degree Works – PVEs" (sumValues pve2))
        else (pveDict, stageDict)
      else (pveDict, stageDict)

/-- PVE/stage dicts of `calculate_degreeworks` after the cap. -/
def dwFinal (cfg : ConfigurationData) (inputs : EstimationInputs)
    (pkg : AddOnPackage) : List (String × ℚ) × List (String × ℚ) :=
  dwCapped cfg inputs (dwUncapped cfg inputs pkg).pveDict
    (dwStage1 cfg inputs pkg)

/-- `AddOnEngine.calculate_degreeworks`. -/
def calculate_degreeworks (cfg : ConfigurationData) (st : PricingState)
    (inputs : EstimationInputs) : StageHours × List RoleHours :=
  if ¬ inputs.include_degreeworks then (emptyStageHours, [])
  else
    match getOpt (packageCache cfg) "Degree Works" with
    | none => (emptyStageHours, [])
    | some pkg =>
        let acc := dwUncapped cfg inputs pkg
        let fin := dwFinal cfg inputs pkg
        let combined : List (String × ℚ) :=
          fin.1.foldl (fun d rp => addKey d rp.1 rp.2)
            (acc.setupDict.foldl (fun d rp => addKey d rp.1 rp.2) [])
        let total_setup := getD fin.2 "Degree Works – Setup" 0
        let total_pve := getD fin.2 "Degree Works – PVEs" 0
        (⟨fin.2,
          [("Degree Works – Setup", 0), ("Degree Works – PVEs", 0)],
          [("Degree Works – Setup", total_setup),
           ("Degree Works – PVEs", total_pve)]⟩,
         combined.filterMap fun rp : String × ℚ =>
           if 0 < rp.2 then
             match create_role_hours cfg st [(rp.1, rp.2)] "Degree Works"
               inputs with
             | [] => none
             | r :: _ => some r
           else none)

theorem sumValues_mapValues_mul {α : Type} (l : List (α × ℚ)) (c : ℚ) :
    sumValues (mapValues (fun x => x * c) l) = sumValues l * c := by
  induction l with
  | nil => simp [mapValues, sumValues]
  | cons p rest ih =>
      simp only [mapValues, sumValues, List.map_cons, List.sum_cons] at *
      rw [ih]
      ring

theorem addKey_nonneg {α : Type} [DecidableEq α]
    (l : List (α × ℚ)) (k : α) (v : ℚ)
    (h : ∀ p ∈ l, 0 ≤ p.2) (hv : 0 ≤ v) :
    ∀ p ∈ addKey l k v, 0 ≤ p.2 :=
  setKey_nonneg l k _ h (add_nonneg (getD_nonneg l k h) hv)

theorem foldl_addKey_nonneg {α β : Type} [DecidableEq α]
    (key : β → α) (val : β → ℚ) :
    ∀ (rows : List β) (acc : List (α × ℚ)),
      (∀ r ∈ rows, 0 ≤ val r) → (∀ p ∈ acc, 0 ≤ p.2) →
      ∀ p ∈ rows.foldl (fun d r => addKey d (key r) (val r)) acc, 0 ≤ p.2 := by
  intro rows
  induction rows with
  | nil => intro acc _ hacc; simpa using hacc
  | cons r rs ih =>
      intro acc hrows hacc
      simp only [List.foldl_cons]
      exact ih (addKey acc (key r) (val r))
        (fun q hq => hrows q (by simp [hq]))
        (addKey_nonneg acc (key r) (val r) hacc (hrows r (by simp)))

/-- `dwPveCount` is always nonnegative: it is built from casts of
nonnegative integer inputs. -/
theorem dwPveCount_nonneg (inputs : EstimationInputs) :
    0 ≤ dwPveCount inputs := by
  unfold dwPveCount
  split
  · positivity
  · positivity

/-- The PVE dict built by the Degree Works tier loop has nonnegative values
whenever the tier-mix percentages and role distributions are nonnegative
and unit hours are positive (the datatype invariants). -/
theorem dwUncapped_pveDict_nonneg (cfg : ConfigurationData)
    (inputs : EstimationInputs) (pkg : AddOnPackage)
    (hmix : 0 ≤ inputs.degreeworks_simple_pct ∧
      0 ≤ inputs.degreeworks_standard_pct ∧
      0 ≤ inputs.degreeworks_complex_pct)
    (hdist : ∀ tier ∈ pkg.tiers, 0 ≤ tier.unit_hours ∧
      ∀ rp ∈ tier.role_distribution, 0 ≤ rp.2) :
    ∀ p ∈ (dwUncapped cfg inputs pkg).pveDict, 0 ≤ p.2 := by
  unfold dwUncapped
  suffices H : ∀ (tiers : List AddOnTier) (acc : DwAcc),
      (∀ tier ∈ tiers, 0 ≤ tier.unit_hours ∧
        ∀ rp ∈ tier.role_distribution, 0 ≤ rp.2) →
      (∀ p ∈ acc.pveDict, 0 ≤ p.2) →
      ∀ p ∈ (tiers.foldl (dwTierStep cfg inputs (dwPveCount inputs))
        acc).pveDict, 0 ≤ p.2 by
    exact H pkg.tiers ⟨[], [], []⟩ hdist (by simp)
  intro tiers
  induction tiers with
  | nil => intro acc _ hacc; simpa using hacc
  | cons t ts ih =>
      intro acc htiers hacc
      simp only [List.foldl_cons]
      apply ih _ (fun q hq => htiers q (by simp [hq]))
      obtain ⟨hunit, hrp⟩ := htiers t (by simp)
      by_cases h1 : (pyLower t.name == "setup") = true
      · by_cases h2 : inputs.degreeworks_include_setup = true
        · simpa [dwTierStep, h1, h2] using hacc
        · simpa [dwTierStep, h1, h2] using hacc
      · by_cases h3 : pyStartsWith (pyLower t.name) "pve" = true
        · by_cases h4 : 0 < dwPveCount inputs
          · have h0 : 0 ≤ dwPveCount inputs := dwPveCount_nonneg inputs
            have hmx : 0 ≤ dwTierMix inputs t := by
              unfold dwTierMix
              split
              · exact hmix.1
              · split
                · exact hmix.2.1
                · split
                  · exact hmix.2.2
                  · exact le_refl 0
            intro p hp
            simp [dwTierStep, h1, h3, h4] at hp
            exact foldl_addKey_nonneg Prod.fst
              (fun rp => dwPveCount inputs * dwTierMix inputs t *
                t.unit_hours * rp.2)
              t.role_distribution acc.pveDict
              (fun rp hmem => mul_nonneg
                (mul_nonneg (mul_nonneg h0 hmx) hunit) (hrp rp hmem))
              hacc p hp
          · simpa [dwTierStep, h1, h3, h4] using hacc
        · simpa [dwTierStep, h1, h3] using hacc

/-- The stage dict built by the Degree Works tier loop holds at most the
single `Degree Works – Setup` key. -/
theorem dwStageDict_shape (cfg : ConfigurationData) (inputs : EstimationInputs)
    (pc : ℚ) :
    ∀ (tiers : List AddOnTier) (acc : DwAcc),
      (acc.stageDict = [] ∨
        ∃ v, acc.stageDict = [("Degree Works – Setup", v)]) →
      ((tiers.foldl (dwTierStep cfg inputs pc) acc).stageDict = [] ∨
        ∃ v, (tiers.foldl (dwTierStep cfg inputs pc) acc).stageDict =
          [("Degree Works – Setup", v)]) := by
  intro tiers
  induction tiers with
  | nil => intro acc h; simpa using h
  | cons t ts ih =>
      intro acc h
      simp only [List.foldl_cons]
      apply ih
      by_cases h1 : (pyLower t.name == "setup") = true
      · by_cases h2 : inputs.degreeworks_include_setup = true
        · rcases h with h | ⟨v, h⟩ <;>
            simp [dwTierStep, h1, h2, setKey, h]
        · simpa [dwTierStep, h1, h2] using h
      · by_cases h3 : pyStartsWith (pyLower t.name) "pve" = true
        · by_cases h4 : 0 < pc
          · simpa [dwTierStep, h1, h3, h4] using h
          · simpa [dwTierStep, h1, h3, h4] using h
        · simpa [dwTierStep, h1, h3] using h

/-- The uncapped Degree Works stage dict is `[]` or a single Setup entry. -/
theorem dwUncapped_stage_shape (cfg : ConfigurationData)
    (inputs : EstimationInputs) (pkg : AddOnPackage) :
    (dwUncapped cfg inputs pkg).stageDict = [] ∨
      ∃ v, (dwUncapped cfg inputs pkg).stageDict =
        [("Degree Works – Setup", v)] :=
  dwStageDict_shape cfg inputs (dwPveCount inputs) pkg.tiers ⟨[], [], []⟩
    (Or.inl rfl)

/-- C3: the Degree Works cap trichotomy.  With capping enabled and a
resolved nonzero cap `cv`, writing `S` for the Setup stage hours and `P`
for the uncapped PVE total: the Setup entry is never changed by the cap;
if `cv < S` the post-cap PVE hours are exactly 0 and the package stage
total equals `S`; if `S + P ≤ cv` nothing is changed; otherwise the
post-cap PVE total is exactly `cv − S`. -/
theorem C3_degreeworks_cap_trichotomy (cfg : ConfigurationData)
    (inputs : EstimationInputs) (pkg : AddOnPackage) (cv : ℚ)
    (hen : inputs.degreeworks_cap_enabled = true)
    (hcap : dwResolvedCap cfg inputs = some cv) (hcv : cv ≠ 0)
    (hnn : ∀ p ∈ (dwUncapped cfg inputs pkg).pveDict, 0 ≤ p.2) :
    getD (dwFinal cfg inputs pkg).2 "Degree Works – Setup" 0 =
      getD (dwStage1 cfg inputs pkg) "Degree Works – Setup" 0 ∧
    (cv < getD (dwStage1 cfg inputs pkg) "Degree Works – Setup" 0 →
      sumValues (dwFinal cfg inputs pkg).1 = 0 ∧
      sumValues (dwFinal cfg inputs pkg).2 =
        getD (dwStage1 cfg inputs pkg) "Degree Works – Setup" 0) ∧
    (getD (dwStage1 cfg inputs pkg) "Degree Works – Setup" 0 +
        sumValues (dwUncapped cfg inputs pkg).pveDict ≤ cv →
      dwFinal cfg inputs pkg =
        ((dwUncapped cfg inputs pkg).pveDict, dwStage1 cfg inputs pkg)) ∧
    (getD (dwStage1 cfg inputs pkg) "Degree Works – Setup" 0 ≤ cv →
      cv < getD (dwStage1 cfg inputs pkg) "Degree Works – Setup" 0 +
        sumValues (dwUncapped cfg inputs pkg).pveDict →
      sumValues (dwFinal cfg inputs pkg).1 =
        cv - getD (dwStage1 cfg inputs pkg) "Degree Works – Setup" 0) := by
  have hPnn : 0 ≤ sumValues (dwUncapped cfg inputs pkg).pveDict :=
    sumValues_nonneg _ hnn
  have hne : ("Degree Works – Setup" : String) ≠ "Degree Works – PVEs" := by
    decide
  have hS0 : getD (dwStage1 cfg inputs pkg) "Degree Works – Setup" 0 =
      getD (dwUncapped cfg inputs pkg).stageDict "Degree Works – Setup" 0 := by
    unfold dwStage1
    split
    · exact getD_setKey_ne _ _ _ _ _ hne
    · rfl
  have hsum1 : sumValues (dwStage1 cfg inputs pkg) =
      getD (dwUncapped cfg inputs pkg).stageDict "Degree Works – Setup" 0 +
        (if 0 < sumValues (dwUncapped cfg inputs pkg).pveDict then
          sumValues (dwUncapped cfg inputs pkg).pveDict else 0) := by
    rcases dwUncapped_stage_shape cfg inputs pkg with hsh | ⟨v, hsh⟩ <;>
      · unfold dwStage1
        rw [hsh]
        split
        · simp [setKey, sumValues, getD]
        · simp [sumValues, getD]
  have hgd1 : getD (dwStage1 cfg inputs pkg) "Degree Works – PVEs" 0 =
      (if 0 < sumValues (dwUncapped cfg inputs pkg).pveDict then
        sumValues (dwUncapped cfg inputs pkg).pveDict else 0) := by
    unfold dwStage1
    split
    · rw [getD_setKey_self]
    · rcases dwUncapped_stage_shape cfg inputs pkg with hsh | ⟨v, hsh⟩ <;>
        simp [hsh, getD]
  have hcond : inputs.degreeworks_cap_enabled = true ∧ cv ≠ 0 := ⟨hen, hcv⟩
  unfold dwFinal dwCapped
  simp only [hcap]
  rw [if_pos hcond]
  by_cases hc : max (cv - getD (dwStage1 cfg inputs pkg)
      "Degree Works – Setup" 0) 0 <
      sumValues (dwUncapped cfg inputs pkg).pveDict
  · rw [if_pos hc]
    have hPpos : 0 < sumValues (dwUncapped cfg inputs pkg).pveDict :=
      lt_of_le_of_lt (le_max_right _ 0) hc
    have hP' : sumValues (dwUncapped cfg inputs pkg).pveDict ≠ 0 :=
      ne_of_gt hPpos
    rw [if_pos hPpos]
    rw [sumValues_mapValues_mul]
    refine ⟨getD_setKey_ne _ _ _ _ _ hne, ?_, ?_, ?_⟩
    · intro hlt
      have hmax : max (cv - getD (dwStage1 cfg inputs pkg)
          "Degree Works – Setup" 0) 0 = 0 :=
        max_eq_right (by linarith)
      rw [hmax]
      constructor
      · simp
      · rw [sumValues_setKey, hsum1, hgd1, if_pos hPpos, hS0]
        simp only [zero_div, mul_zero]
        ring
    · intro hle
      exfalso
      have h1 : cv - getD (dwStage1 cfg inputs pkg)
          "Degree Works – Setup" 0 ≤ max (cv - getD (dwStage1 cfg inputs pkg)
          "Degree Works – Setup" 0) 0 := le_max_left _ _
      linarith
    · intro hge hlt
      have hmax : max (cv - getD (dwStage1 cfg inputs pkg)
          "Degree Works – Setup" 0) 0 =
          cv - getD (dwStage1 cfg inputs pkg) "Degree Works – Setup" 0 :=
        max_eq_left (by linarith)
      rw [hmax, mul_comm, div_mul_cancel₀ _ hP']
  · rw [if_neg hc]
    push_neg at hc
    refine ⟨rfl, ?_, ?_, ?_⟩
    · intro hlt
      have hmax : max (cv - getD (dwStage1 cfg inputs pkg)
          "Degree Works – Setup" 0) 0 = 0 :=
        max_eq_right (by linarith)
      rw [hmax] at hc
      have hP0 : sumValues (dwUncapped cfg inputs pkg).pveDict = 0 :=
        le_antisymm hc hPnn
      refine ⟨hP0, ?_⟩
      rw [hsum1, hP0, hS0]
      simp
    · intro _; rfl
    · intro hge hlt
      exfalso
      have hmax : max (cv - getD (dwStage1 cfg inputs pkg)
          "Degree Works – Setup" 0) 0 =
          cv - getD (dwStage1 cfg inputs pkg) "Degree Works – Setup" 0 :=
        max_eq_left (by linarith)
      rw [hmax] at hc
      linarith

/-- Concrete Degree Works package used by witnesses. -/
def pkgDW : AddOnPackage where
  name := "Degree Works"
  tiers :=
    [⟨"Setup", 300, [("Consultant", 1)], true⟩,
     ⟨"PVE Simple", 24, [("Scribe", 1)], false⟩,
     ⟨"PVE Standard", 48, [("Scribe", 1)], false⟩,
     ⟨"PVE Complex", 96, [("Scribe", 1)], false⟩]
  scale_by_size := false

/-- Concrete configuration with the Degree Works package and default caps. -/
def cfgDW : ConfigurationData where
  baseline_hours := 6700
  stage_weights := [⟨"Deliver", "Configure", 1⟩]
  stages_presales := []
  activities := []
  role_mix := []
  rates := [⟨"Consultant", "US", 100, 50, 75⟩, ⟨"Scribe", "US", 100, 50, 75⟩]
  delivery_mix := [⟨none, 7/10, 1/5, 1/10⟩]
  addon_packages := [pkgDW]
  product_role_map := []
  size_multipliers := [("Medium", 1)]
  delivery_type_multipliers := [("Net New", 1)]
  addon_caps := [("Degree Works", [("Medium", 400)])]
  product_delivery_type_multipliers := []

/-- Default inputs with Degree Works enabled and 100 majors. -/
def inputsDW : EstimationInputs :=
  { inputsDefault with include_degreeworks := true, degreeworks_majors := 100 }

/-- Witness for C3: at `cfgDW`/`inputsDW` the Setup hours are 300, the
uncapped PVE total is 4320, the resolved cap is 400, and the middle
trichotomy case applies: the post-cap PVE total is exactly 400 − 300. -/
theorem C3_witness :
    sumValues (dwFinal cfgDW inputsDW pkgDW).1 =
      400 - getD (dwStage1 cfgDW inputsDW pkgDW) "Degree Works – Setup" 0 := by
  have e1 : (pyLower "Setup" == "setup") = true := by decide
  have e2 : (pyLower "PVE Simple" == "setup") = false := by decide
  have e3 : (pyLower "PVE Standard" == "setup") = false := by decide
  have e4 : (pyLower "PVE Complex" == "setup") = false := by decide
  have f2 : pyStartsWith (pyLower "PVE Simple") "pve" = true := by decide
  have f3 : pyStartsWith (pyLower "PVE Standard") "pve" = true := by decide
  have f4 : pyStartsWith (pyLower "PVE Complex") "pve" = true := by decide
  have c2s : pyContainsSub (pyLower "PVE Simple") "simple" = true := by decide
  have c3s : pyContainsSub (pyLower "PVE Standard") "simple" = false := by
    decide
  have c3t : pyContainsSub (pyLower "PVE Standard") "standard" = true := by
    decide
  have c4s : pyContainsSub (pyLower "PVE Complex") "simple" = false := by
    decide
  have c4t : pyContainsSub (pyLower "PVE Complex") "standard" = false := by
    decide
  have c4c : pyContainsSub (pyLower "PVE Complex") "complex" = true := by
    decide
  have hacc : dwUncapped cfgDW inputsDW pkgDW =
      ⟨[("Consultant", 300)], [("Scribe", 4320)],
       [("Degree Works – Setup", 300)]⟩ := by
    simp [dwUncapped, dwTierStep, dwTierMix, dwPveCount, pkgDW, cfgDW,
      inputsDW, inputsDefault, sizeMultiplier, getD, setKey, addKey,
      e1, e2, e3, e4, f2, f3, f4, c2s, c3s, c3t, c4s, c4t, c4c]
    norm_num
  have hP : sumValues (dwUncapped cfgDW inputsDW pkgDW).pveDict = 4320 := by
    simp [hacc, sumValues]
  have hS : getD (dwStage1 cfgDW inputsDW pkgDW) "Degree Works – Setup" 0
      = 300 := by
    simp [dwStage1, hacc, sumValues, setKey, getD]
  have h := C3_degreeworks_cap_trichotomy cfgDW inputsDW pkgDW 400 rfl
    (by simp [dwResolvedCap, getOpt, getD, cfgDW, inputsDW, inputsDefault])
    (by norm_num)
    (dwUncapped_pveDict_nonneg cfgDW inputsDW pkgDW
      (by norm_num [inputsDW, inputsDefault])
      (by
        intro t ht
        simp [pkgDW] at ht
        rcases ht with rfl | rfl | rfl | rfl
        all_goals refine ⟨by norm_num, ?_⟩
        all_goals intro rp hrp
        all_goals simp at hrp
        all_goals simp [hrp]))
  exact h.2.2.2 (by rw [hS]; norm_num) (by rw [hS, hP]; norm_num)

/-- C9 (amended): the resolved Degree Works cap equals the explicit
override only when the override is provided and nonzero; an override of 0
(like an absent override) falls back to the size-band default, because the
Python `or` treats `0.0` as falsy; and the cap block leaves both dicts
unchanged unless capping is enabled and the resolved cap is non-None and
nonzero. -/
theorem C9_cap_resolution (cfg : ConfigurationData)
    (inputs : EstimationInputs) :
    (∀ v : ℚ, inputs.degreeworks_cap_hours = some v → v ≠ 0 →
      dwResolvedCap cfg inputs = some v) ∧
    (inputs.degreeworks_cap_hours = none ∨
        inputs.degreeworks_cap_hours = some 0 →
      dwResolvedCap cfg inputs =
        getOpt (getD cfg.addon_caps "Degree Works" []) inputs.size_band) ∧
    (∀ pveDict stageDict : List (String × ℚ),
      ¬ (inputs.degreeworks_cap_enabled = true ∧
        ∃ cv, dwResolvedCap cfg inputs = some cv ∧ cv ≠ 0) →
      dwCapped cfg inputs pveDict stageDict = (pveDict, stageDict)) := by
  refine ⟨?_, ?_, ?_⟩
  · intro v hv hv0
    simp [dwResolvedCap, hv, hv0]
  · intro h
    rcases h with h | h <;> simp [dwResolvedCap, h]
  · intro pveDict stageDict h
    unfold dwCapped
    cases hres : dwResolvedCap cfg inputs with
    | none => simp only [hres]
    | some cv =>
        simp only [hres]
        rw [if_neg fun hcontra => h ⟨hcontra.1, cv, hres, hcontra.2⟩]

/-- Counterexample to C9 as stated: with an explicit override of 0 hours
(and the Medium default cap 400 in the lookup table), the resolved cap is
400, not the override 0 — Python `or` drops a `0.0` override. -/
theorem C9_counterexample :
    { inputsDW with degreeworks_cap_hours := some 0 }.degreeworks_cap_hours =
      some 0 ∧
    dwResolvedCap cfgDW { inputsDW with degreeworks_cap_hours := some 0 } =
      some 400 ∧
    some (400 : ℚ) ≠ some (0 : ℚ) := by
  refine ⟨rfl, ?_, by norm_num⟩
  simp [dwResolvedCap, getOpt, getD, cfgDW, inputsDW, inputsDefault]

/-- Witness for the amended C9 at concrete inputs: a nonzero override of
370 is honoured, an absent override falls back to the size default, and a
disabled cap leaves the dicts unchanged. -/
theorem C9_witness :
    dwResolvedCap cfgDW { inputsDW with degreeworks_cap_hours := some 370 } =
      some 370 ∧
    dwResolvedCap cfgDW inputsDW =
      getOpt (getD cfgDW.addon_caps "Degree Works" []) inputsDW.size_band ∧
    dwCapped cfgDW { inputsDW with degreeworks_cap_enabled := false } [] [] =
      ([], []) :=
  ⟨(C9_cap_resolution cfgDW
      { inputsDW with degreeworks_cap_hours := some 370 }).1 370 rfl
      (by norm_num),
   (C9_cap_resolution cfgDW inputsDW).2.1 (Or.inl rfl),
   (C9_cap_resolution cfgDW
      { inputsDW with degreeworks_cap_enabled := false }).2.2 [] []
      (by simp)⟩

/-! ### `EstimationInputs` construction (`engine/datatypes.py` lines 101-173)

Pydantic v2 semantics: per-field `ge`/`le` constraints and `field_validator`s
run only for explicitly supplied values (`validate_default` is unset), in
declaration order; `info.data` holds the already-processed earlier fields,
defaults included.  The model below covers the nine tier-mix percentage
fields; all other fields keep their declared defaults. -/

/-- Structured construction error: the offending field and value. -/
inductive InputError where
  | outOfRange (field : String) (value : ℚ)
  | badMix (field : String) (total : ℚ)
deriving DecidableEq

/-- Tier-mix fields of the constructor call: `none` = not supplied. -/
structure RawTierMixInputs where
  integrations_simple_pct : Option ℚ
  integrations_standard_pct : Option ℚ
  integrations_complex_pct : Option ℚ
  reports_simple_pct : Option ℚ
  reports_standard_pct : Option ℚ
  reports_complex_pct : Option ℚ
  degreeworks_simple_pct : Option ℚ
  degreeworks_standard_pct : Option ℚ
  degreeworks_complex_pct : Option ℚ
deriving DecidableEq

/-- Field processing for a pct field with `ge=0, le=1` and no validator:
a supplied value is bounds-checked, an omitted one takes the default
unchecked. -/
def checkPct (field : String) (dflt : ℚ) : Option ℚ → Except InputError ℚ
  | none => .ok dflt
  | some v =>
      if 0 ≤ v ∧ v ≤ 1 then .ok v else .error (.outOfRange field v)

/-- Field processing for a `*_complex_pct` field: bounds check plus the
tier-mix field validator, which runs only when the value is supplied. -/
def checkMixPct (field : String) (s t dflt : ℚ) :
    Option ℚ → Except InputError ℚ
  | none => .ok dflt
  | some v =>
      if 0 ≤ v ∧ v ≤ 1 then
        if |s + t + v - 1| ≤ 1/1000 then .ok v
        else .error (.badMix field (s + t + v))
      else .error (.outOfRange field v)

/-- `EstimationInputs(**kwargs)` restricted to the tier-mix fields. -/
def mkEstimationInputs (raw : RawTierMixInputs) :
    Except InputError EstimationInputs := do
  let isp ← checkPct "integrations_simple_pct" (3/5) raw.integrations_simple_pct
  let ist ← checkPct "integrations_standard_pct" (3/10)
    raw.integrations_standard_pct
  let icx ← checkMixPct "integrations_complex_pct" isp ist (1/10)
    raw.integrations_complex_pct
  let rsp ← checkPct "reports_simple_pct" (1/2) raw.reports_simple_pct
  let rst ← checkPct "reports_standard_pct" (7/20) raw.reports_standard_pct
  let rcx ← checkMixPct "reports_complex_pct" rsp rst (3/20)
    raw.reports_complex_pct
  let dsp ← checkPct "degreeworks_simple_pct" (1/2) raw.degreeworks_simple_pct
  let dst ← checkPct "degreeworks_standard_pct" (7/20)
    raw.degreeworks_standard_pct
  let dcx ← checkMixPct "degreeworks_complex_pct" dsp dst (3/20)
    raw.degreeworks_complex_pct
  .ok { inputsDefault with
    integrations_simple_pct := isp
    integrations_standard_pct := ist
    integrations_complex_pct := icx
    reports_simple_pct := rsp
    reports_standard_pct := rst
    reports_complex_pct := rcx
    degreeworks_simple_pct := dsp
    degreeworks_standard_pct := dst
    degreeworks_complex_pct := dcx }

/-- A field value is in bounds whenever it is supplied. -/
def pctOk (o : Option ℚ) : Prop := ∀ w, o = some w → 0 ≤ w ∧ w ≤ 1

/-- A complex pct is in bounds and in mix tolerance whenever supplied. -/
def mixOk (s t : ℚ) (o : Option ℚ) : Prop :=
  ∀ w, o = some w → (0 ≤ w ∧ w ≤ 1) ∧ |s + t + w - 1| ≤ 1/1000

theorem checkPct_eval (f : String) (d : ℚ) (o : Option ℚ) (h : pctOk o) :
    checkPct f d o = .ok (o.getD d) := by
  cases o with
  | none => rfl
  | some v => simp [checkPct, h v rfl]

theorem checkMixPct_eval (f : String) (s t d : ℚ) (o : Option ℚ)
    (h : mixOk s t o) : checkMixPct f s t d o = .ok (o.getD d) := by
  cases o with
  | none => rfl
  | some v =>
      have hb := (h v rfl).1
      have ht := (h v rfl).2
      simp [checkMixPct, hb]
      linarith

theorem checkMixPct_bad (f : String) (s t d v : ℚ)
    (hb : 0 ≤ v ∧ v ≤ 1) (hbad : ¬ |s + t + v - 1| ≤ 1/1000) :
    checkMixPct f s t d (some v) = .error (.badMix f (s + t + v)) := by
  simp [checkMixPct, hb, hbad]
  linarith [not_le.mp hbad]

/-- C7 (amended): a tier-mix triple is checked — and an out-of-tolerance
triple rejected with an error naming the offending field and total — only
when the triple's `*_complex_pct` field is explicitly supplied; when it is
omitted the validator does not run, and (last conjunct) a construction
whose triple is out of tolerance purely through defaulted fields succeeds. -/
theorem C7_tier_mix_validation (raw : RawTierMixInputs) :
    (∀ v : ℚ, raw.integrations_complex_pct = some v → 0 ≤ v ∧ v ≤ 1 →
      pctOk raw.integrations_simple_pct → pctOk raw.integrations_standard_pct →
      ¬ |raw.integrations_simple_pct.getD (3/5) +
          raw.integrations_standard_pct.getD (3/10) + v - 1| ≤ 1/1000 →
      mkEstimationInputs raw = .error (.badMix "integrations_complex_pct"
        (raw.integrations_simple_pct.getD (3/5) +
          raw.integrations_standard_pct.getD (3/10) + v))) ∧
    (∀ v : ℚ, raw.reports_complex_pct = some v → 0 ≤ v ∧ v ≤ 1 →
      pctOk raw.integrations_simple_pct → pctOk raw.integrations_standard_pct →
      mixOk (raw.integrations_simple_pct.getD (3/5))
        (raw.integrations_standard_pct.getD (3/10))
        raw.integrations_complex_pct →
      pctOk raw.reports_simple_pct → pctOk raw.reports_standard_pct →
      ¬ |raw.reports_simple_pct.getD (1/2) +
          raw.reports_standard_pct.getD (7/20) + v - 1| ≤ 1/1000 →
      mkEstimationInputs raw = .error (.badMix "reports_complex_pct"
        (raw.reports_simple_pct.getD (1/2) +
          raw.reports_standard_pct.getD (7/20) + v))) ∧
    (∀ v : ℚ, raw.degreeworks_complex_pct = some v → 0 ≤ v ∧ v ≤ 1 →
      pctOk raw.integrations_simple_pct → pctOk raw.integrations_standard_pct →
      mixOk (raw.integrations_simple_pct.getD (3/5))
        (raw.integrations_standard_pct.getD (3/10))
        raw.integrations_complex_pct →
      pctOk raw.reports_simple_pct → pctOk raw.reports_standard_pct →
      mixOk (raw.reports_simple_pct.getD (1/2))
        (raw.reports_standard_pct.getD (7/20)) raw.reports_complex_pct →
      pctOk raw.degreeworks_simple_pct → pctOk raw.degreeworks_standard_pct →
      ¬ |raw.degreeworks_simple_pct.getD (1/2) +
          raw.degreeworks_standard_pct.getD (7/20) + v - 1| ≤ 1/1000 →
      mkEstimationInputs raw = .error (.badMix "degreeworks_complex_pct"
        (raw.degreeworks_simple_pct.getD (1/2) +
          raw.degreeworks_standard_pct.getD (7/20) + v))) ∧
    (∀ s : ℚ, 0 ≤ s → s ≤ 1 →
      ∃ i, mkEstimationInputs ⟨some s, none, none, none, none, none, none,
        none, none⟩ = .ok i ∧ i.integrations_simple_pct = s ∧
        i.integrations_standard_pct = 3/10 ∧
        i.integrations_complex_pct = 1/10) := by
  refine ⟨?_, ?_, ?_, ?_⟩
  · intro v hv hb h1 h2 hbad
    simp [mkEstimationInputs, bind, Except.bind,
      checkPct_eval _ _ _ h1, checkPct_eval _ _ _ h2,
      hv, checkMixPct_bad _ _ _ _ _ hb hbad]
  · intro v hv hb h1 h2 h3 h4 h5 hbad
    simp only [mkEstimationInputs, bind, Except.bind,
      checkPct_eval _ _ _ h1, checkPct_eval _ _ _ h2,
      checkMixPct_eval _ _ _ _ _ h3, checkPct_eval _ _ _ h4,
      checkPct_eval _ _ _ h5, hv, checkMixPct_bad _ _ _ _ _ hb hbad]
  · intro v hv hb h1 h2 h3 h4 h5 h6 h7 h8 hbad
    simp only [mkEstimationInputs, bind, Except.bind,
      checkPct_eval _ _ _ h1, checkPct_eval _ _ _ h2,
      checkMixPct_eval _ _ _ _ _ h3, checkPct_eval _ _ _ h4,
      checkPct_eval _ _ _ h5, checkMixPct_eval _ _ _ _ _ h6,
      checkPct_eval _ _ _ h7, checkPct_eval _ _ _ h8,
      hv, checkMixPct_bad _ _ _ _ _ hb hbad]
  · intro s hs0 hs1
    refine ⟨{ inputsDefault with integrations_simple_pct := s }, ?_, rfl,
      rfl, rfl⟩
    simp [mkEstimationInputs, bind, Except.bind, checkPct, checkMixPct,
      hs0, hs1, inputsDefault]

/-- Counterexample to C7 as stated: supplying only
`integrations_simple_pct = 0.9` (standard and complex take their defaults
0.3 and 0.1) constructs successfully although the triple sums to 1.3 —
the complex-pct validator never runs on a defaulted field. -/
theorem C7_counterexample :
    mkEstimationInputs ⟨some (9/10), none, none, none, none, none, none,
        none, none⟩ =
      .ok { inputsDefault with integrations_simple_pct := 9/10 } ∧
    ¬ |(9/10 : ℚ) + 3/10 + 1/10 - 1| ≤ 1/1000 := by
  constructor
  · simp [mkEstimationInputs, bind, Except.bind, checkPct, checkMixPct,
      inputsDefault]
    norm_num
  · rw [abs_le]
    norm_num

/-- Witness for the amended C7: a supplied out-of-tolerance complex pct is
rejected with the named error, and an out-of-tolerance triple arising only
from defaults is accepted. -/
theorem C7_witness :
    mkEstimationInputs ⟨some (1/2), none, some (1/2), none, none, none,
        none, none, none⟩ =
      .error (.badMix "integrations_complex_pct" (1/2 + 3/10 + 1/2)) ∧
    ∃ i, mkEstimationInputs ⟨some (9/10), none, none, none, none, none,
        none, none, none⟩ = .ok i ∧ i.integrations_simple_pct = 9/10 ∧
      i.integrations_standard_pct = 3/10 ∧
      i.integrations_complex_pct = 1/10 := by
  constructor
  · have h := (C7_tier_mix_validation ⟨some (1/2), none, some (1/2), none,
      none, none, none, none, none⟩).1 (1/2) rfl (by norm_num)
      (by intro w hw; simp at hw; subst hw; norm_num)
      (by intro w hw; simp at hw)
      (by rw [abs_le]; norm_num)
    simpa using h
  · exact (C7_tier_mix_validation ⟨some (9/10), none, none, none, none,
      none, none, none, none⟩).2.2.2 (9/10) (by norm_num) (by norm_num)

/-! ### Orchestrator (`engine/orchestrator.py`) -/

/-- Accumulated per-role totals of `PricingEngine.summarize_by_role`. -/
structure RoleTotals where
  total_hours : ℚ
  onshore_hours : ℚ
  offshore_hours : ℚ
  partner_hours : ℚ
  onshore_cost : ℚ
  offshore_cost : ℚ
  partner_cost : ℚ
  total_cost : ℚ
deriving DecidableEq

/-- The all-zero totals a fresh role starts from. -/
def zeroTotals : RoleTotals := ⟨0, 0, 0, 0, 0, 0, 0, 0⟩

/-- One accumulation step of `summarize_by_role` (lines 190-210). -/
def addRole (acc : List (String × RoleTotals)) (rh : RoleHours) :
    List (String × RoleTotals) :=
  let cur := getD acc rh.role zeroTotals
  setKey acc rh.role
    ⟨cur.total_hours + rh.total_hours, cur.onshore_hours + rh.onshore_hours,
     cur.offshore_hours + rh.offshore_hours,
     cur.partner_hours + rh.partner_hours,
     cur.onshore_cost + rh.onshore_cost, cur.offshore_cost + rh.offshore_cost,
     cur.partner_cost + rh.partner_cost, cur.total_cost + rh.total_cost⟩

/-- `PricingEngine.summarize_by_role`. -/
def summarize_by_role (rows : List RoleHours) : List RoleHours :=
  let sums : List (String × RoleTotals) := rows.foldl addRole []
  pySortByCostDesc (sums.map fun p : String × RoleTotals =>
    { role := p.1, stage := "All Stages", total_hours := p.2.total_hours,
      onshore_hours := p.2.onshore_hours, offshore_hours := p.2.offshore_hours,
      partner_hours := p.2.partner_hours, onshore_cost := p.2.onshore_cost,
      offshore_cost := p.2.offshore_cost, partner_cost := p.2.partner_cost,
      total_cost := p.2.total_cost,
      blended_rate :=
        if 0 < p.2.total_hours then p.2.total_cost / p.2.total_hours else 0 })

/-- Complete estimation results (`EstimationResults`). -/
structure EstimationResults where
  inputs : EstimationInputs
  base_n2s : StageHours
  base_role_hours : List RoleHours
  integrations_hours : Option StageHours
  integrations_role_hours : Option (List RoleHours)
  reports_hours : Option StageHours
  reports_role_hours : Option (List RoleHours)
  degreeworks_hours : Option StageHours
  degreeworks_role_hours : Option (List RoleHours)
  total_presales_hours : ℚ
  total_delivery_hours : ℚ
  total_presales_cost : ℚ
  total_delivery_cost : ℚ
  total_hours : ℚ
  total_cost : ℚ
deriving DecidableEq

/-- Sum a projection over a row list. -/
def sumBy (f : RoleHours → ℚ) (rows : List RoleHours) : ℚ :=
  (rows.map f).sum

/-- Python truthiness of `stage_hours and role_hours` in
`_calculate_totals`: the stage-hours object is truthy, the row list only
when non-empty. -/
def addonCounts : Option StageHours → Option (List RoleHours) → Bool
  | some _, some (_ :: _) => true
  | _, _ => false

/-- Delivery-hour contribution of one add-on in `_calculate_totals`. -/
def addonHours (sh : Option StageHours) (rows : Option (List RoleHours)) : ℚ :=
  if addonCounts sh rows then sumValues ((sh.getD emptyStageHours).delivery_hours)
  else 0

/-- Cost contribution of one add-on in `_calculate_totals`. -/
def addonCost (sh : Option StageHours) (rows : Option (List RoleHours)) : ℚ :=
  if addonCounts sh rows then sumBy (·.total_cost) (rows.getD []) else 0

/-- `N2SEstimator.estimate` together with `_calculate_totals`. -/
def estimate (cfg : ConfigurationData) (st : PricingState)
    (inputs : EstimationInputs) : EstimationResults :=
  let base := estimate_base_n2s cfg inputs
  let base_rows := calculate_role_hours_and_costs cfg st base inputs
  let ints := if inputs.include_integrations then
    some (calculate_integrations cfg st inputs) else none
  let reps := if inputs.include_reports then
    some (calculate_reports cfg st inputs) else none
  let dws := if inputs.include_degreeworks then
    some (calculate_degreeworks cfg st inputs) else none
  let base_presales := sumValues base.presales_hours
  let base_delivery := sumValues base.delivery_hours
  let base_delivery_cost := sumBy (·.total_cost) base_rows
  let addon_hours := addonHours (ints.map Prod.fst) (ints.map Prod.snd) +
    addonHours (reps.map Prod.fst) (reps.map Prod.snd) +
    addonHours (dws.map Prod.fst) (dws.map Prod.snd)
  let addon_cost := addonCost (ints.map Prod.fst) (ints.map Prod.snd) +
    addonCost (reps.map Prod.fst) (reps.map Prod.snd) +
    addonCost (dws.map Prod.fst) (dws.map Prod.snd)
  { inputs := inputs
    base_n2s := base
    base_role_hours := base_rows
    integrations_hours := ints.map Prod.fst
    integrations_role_hours := ints.map Prod.snd
    reports_hours := reps.map Prod.fst
    reports_role_hours := reps.map Prod.snd
    degreeworks_hours := dws.map Prod.fst
    degreeworks_role_hours := dws.map Prod.snd
    total_presales_hours := base_presales
    total_delivery_hours := base_delivery + addon_hours
    total_presales_cost := 0
    total_delivery_cost := base_delivery_cost + addon_cost
    total_hours := base_presales + (base_delivery + addon_hours)
    total_cost := 0 + (base_delivery_cost + addon_cost) }

/-- `N2SEstimator.get_role_summary`: base, Integrations and Reports rows
only — Degree Works rows are never included. -/
def get_role_summary (results : EstimationResults) : List RoleHours :=
  summarize_by_role (results.base_role_hours ++
    (results.integrations_role_hours.getD []) ++
    (results.reports_role_hours.getD []))

/-- One channel of the delivery-split summary. -/
structure SplitChannel where
  hours : ℚ
  cost : ℚ
  hours_pct : ℚ
  cost_pct : ℚ
deriving DecidableEq

/-- `N2SEstimator.get_delivery_split_summary` output. -/
structure SplitSummary where
  onshore : SplitChannel
  offshore : SplitChannel
  partner : SplitChannel
deriving DecidableEq

/-- The row pool of `get_delivery_split_summary`: all four packages. -/
def allSplitRows (results : EstimationResults) : List RoleHours :=
  results.base_role_hours ++ (results.integrations_role_hours.getD []) ++
    (results.reports_role_hours.getD []) ++
    (results.degreeworks_role_hours.getD [])

/-- `N2SEstimator.get_delivery_split_summary`. -/
def get_delivery_split_summary (results : EstimationResults) : SplitSummary :=
  let rows := allSplitRows results
  let ons_h := sumBy (·.onshore_hours) rows
  let off_h := sumBy (·.offshore_hours) rows
  let par_h := sumBy (·.partner_hours) rows
  let tot_h := ons_h + off_h + par_h
  let ons_c := sumBy (·.onshore_cost) rows
  let off_c := sumBy (·.offshore_cost) rows
  let par_c := sumBy (·.partner_cost) rows
  let tot_c := ons_c + off_c + par_c
  if 0 < tot_h then
    ⟨⟨ons_h, ons_c, ons_h / tot_h, if 0 < tot_c then ons_c / tot_c else 0⟩,
     ⟨off_h, off_c, off_h / tot_h, if 0 < tot_c then off_c / tot_c else 0⟩,
     ⟨par_h, par_c, par_h / tot_h, if 0 < tot_c then par_c / tot_c else 0⟩⟩
  else
    ⟨⟨0, 0, 0, 0⟩, ⟨0, 0, 0, 0⟩, ⟨0, 0, 0, 0⟩⟩

/-! ### Pricing overrides (C4)

`orchestrator.py` lines 296-331 call `PricingEngine.update_rate`,
`update_global_delivery_mix`, `update_role_delivery_mix` and
`reset_from_config`, and the repository's tests exercise them, but the
method bodies are not present under `src/`.  They are modelled from the
spec below. -/

/-- Modelled from the spec: `PricingEngine.update_rate` (absent from
`pricing.py`; only its orchestrator caller and tests are in src).  Spec:
"Pricing overrides (rate/mix) are explicit mutations applied to
engine-local caches, not to ConfigurationData" with rows
`{role, locale, onshore, offshore, partner}`. -/
def update_rate (st : PricingState) (role locale : String)
    (onshore offshore partner : ℚ) : PricingState :=
  let rc := RateCard.mk role locale onshore offshore partner
  { st with rateCache := setKey st.rateCache (role, locale) rc }

/-- Modelled from the spec: `PricingEngine.update_global_delivery_mix`
(absent from `pricing.py`): overwrite the global (role = None) entry of the
engine-local delivery-mix cache. -/
def update_global_delivery_mix (st : PricingState)
    (onshore_pct offshore_pct partner_pct : ℚ) : PricingState :=
  let dm := DeliveryMix.mk none onshore_pct offshore_pct partner_pct
  { st with mixCache := setKey st.mixCache none dm }

/-- Modelled from the spec: `PricingEngine.update_role_delivery_mix`
(absent from `pricing.py`): overwrite a per-role entry of the engine-local
delivery-mix cache. -/
def update_role_delivery_mix (st : PricingState) (role : String)
    (onshore_pct offshore_pct partner_pct : ℚ) : PricingState :=
  let dm := DeliveryMix.mk (some role) onshore_pct offshore_pct partner_pct
  { st with mixCache := setKey st.mixCache (some role) dm }

/-- Modelled from the spec: `PricingEngine.reset_from_config` (absent from
`pricing.py`): "reset to reload the original configuration values" —
rebuild the caches from the untouched `ConfigurationData`. -/
def reset_from_config (cfg : ConfigurationData) (_st : PricingState) :
    PricingState :=
  buildCaches cfg

/-- A rate-override row passed to `apply_rate_overrides`. -/
structure RateOverrideRow where
  role : String
  locale : String
  onshore : ℚ
  offshore : ℚ
  partner : ℚ
deriving DecidableEq

/-- A per-role delivery-mix override row. -/
structure MixRow where
  role : String
  onshore_pct : ℚ
  offshore_pct : ℚ
  partner_pct : ℚ
deriving DecidableEq

/-- A global delivery-mix override. -/
structure GlobalMixRow where
  onshore_pct : ℚ
  offshore_pct : ℚ
  partner_pct : ℚ
deriving DecidableEq

/-- `N2SEstimator.apply_rate_overrides` (lines 296-307). -/
def apply_rate_overrides (st : PricingState) (rows : List RateOverrideRow) :
    PricingState :=
  rows.foldl (fun s r =>
    update_rate s r.role r.locale r.onshore r.offshore r.partner) st

/-- `N2SEstimator.apply_delivery_mix_overrides` (lines 309-325). -/
def apply_delivery_mix_overrides (st : PricingState)
    (global_mix : Option GlobalMixRow) (role_overrides : List MixRow) :
    PricingState :=
  let st1 :=
    match global_mix with
    | some g =>
        update_global_delivery_mix st g.onshore_pct g.offshore_pct
          g.partner_pct
    | none => st
  role_overrides.foldl (fun s r =>
    update_role_delivery_mix s r.role r.onshore_pct r.offshore_pct
      r.partner_pct) st1

/-- `N2SEstimator.reset_pricing_overrides` (lines 327-330). -/
def reset_pricing_overrides (cfg : ConfigurationData) (st : PricingState) :
    PricingState :=
  reset_from_config cfg st

theorem getOpt_setKey_self {α β : Type} [DecidableEq α]
    (l : List (α × β)) (k : α) (v : β) :
    getOpt (setKey l k v) k = some v := by
  induction l with
  | nil => simp [setKey, getOpt]
  | cons p rest ih =>
      by_cases h : p.1 = k
      · simp [setKey, h, getOpt]
      · simp [setKey, h, getOpt, ih]

theorem getOpt_setKey_ne {α β : Type} [DecidableEq α]
    (l : List (α × β)) (k j : α) (v : β) (hne : j ≠ k) :
    getOpt (setKey l k v) j = getOpt l j := by
  induction l with
  | nil => simp [setKey, getOpt, Ne.symm hne]
  | cons p rest ih =>
      by_cases h : p.1 = k
      · simp [setKey, h, getOpt, Ne.symm hne]
      · simp [setKey, h, getOpt, ih]

/-- C4: an applied rate override is what subsequent rate lookups return, an
applied per-role (or global) mix override is what subsequent split lookups
return, `ConfigurationData` is never touched so `reset_pricing_overrides`
restores exactly the caches built from the original configuration, and
`estimate` after apply-then-reset equals `estimate` before any override. -/
theorem C4_pricing_overrides_roundtrip (cfg : ConfigurationData)
    (st : PricingState) (inputs : EstimationInputs) (role locale : String)
    (a b c : ℚ) (rows : List RateOverrideRow) (gm : Option GlobalMixRow)
    (ro : List MixRow)
    (hnr : getOpt st.mixCache (some role) = none) :
    getRates (update_rate st role locale a b c) role locale =
      RateCard.mk role locale a b c ∧
    getDeliverySplit (update_role_delivery_mix st role a b c) role =
      DeliveryMix.mk (some role) a b c ∧
    getDeliverySplit (update_global_delivery_mix st a b c) role =
      DeliveryMix.mk none a b c ∧
    reset_pricing_overrides cfg
      (apply_delivery_mix_overrides (apply_rate_overrides st rows) gm ro) =
      buildCaches cfg ∧
    estimate cfg (reset_pricing_overrides cfg
      (apply_delivery_mix_overrides
        (apply_rate_overrides (buildCaches cfg) rows) gm ro)) inputs =
      estimate cfg (buildCaches cfg) inputs := by
  refine ⟨?_, ?_, ?_, rfl, rfl⟩
  · simp [getRates, update_rate, getOpt_setKey_self]
  · simp [getDeliverySplit, update_role_delivery_mix, getOpt_setKey_self]
  · have h1 : getOpt (setKey st.mixCache none
        (DeliveryMix.mk none a b c)) (some role) =
        getOpt st.mixCache (some role) :=
      getOpt_setKey_ne _ _ _ _ (by simp)
    simp [getDeliverySplit, update_global_delivery_mix, h1, hnr,
      getOpt_setKey_self]

/-- Witness for C4 at a concrete configuration and override set. -/
theorem C4_witness :
    getRates (update_rate (buildCaches cfgPrice) "Analyst" "US"
        (17/20) (1/10) (1/20)) "Analyst" "US" =
      RateCard.mk "Analyst" "US" (17/20) (1/10) (1/20) ∧
    getDeliverySplit (update_role_delivery_mix (buildCaches cfgPrice)
        "Analyst" (17/20) (1/10) (1/20)) "Analyst" =
      DeliveryMix.mk (some "Analyst") (17/20) (1/10) (1/20) ∧
    getDeliverySplit (update_global_delivery_mix (buildCaches cfgPrice)
        (17/20) (1/10) (1/20)) "Analyst" =
      DeliveryMix.mk none (17/20) (1/10) (1/20) ∧
    reset_pricing_overrides cfgPrice
      (apply_delivery_mix_overrides (apply_rate_overrides
        (buildCaches cfgPrice) [⟨"Developer", "US", 200, 100, 150⟩])
        (some ⟨3/4, 3/20, 1/10⟩) [⟨"Developer", 17/20, 1/10, 1/20⟩]) =
      buildCaches cfgPrice ∧
    estimate cfgPrice (reset_pricing_overrides cfgPrice
      (apply_delivery_mix_overrides (apply_rate_overrides
        (buildCaches cfgPrice) [⟨"Developer", "US", 200, 100, 150⟩])
        (some ⟨3/4, 3/20, 1/10⟩) [⟨"Developer", 17/20, 1/10, 1/20⟩]))
      inputsDefault =
      estimate cfgPrice (buildCaches cfgPrice) inputsDefault :=
  C4_pricing_overrides_roundtrip cfgPrice (buildCaches cfgPrice)
    inputsDefault "Analyst" "US" (17/20) (1/10) (1/20)
    [⟨"Developer", "US", 200, 100, 150⟩] (some ⟨3/4, 3/20, 1/10⟩)
    [⟨"Developer", 17/20, 1/10, 1/20⟩]
    (by simp [buildCaches, dictOfList, setKey, getOpt, cfgPrice])

/-! ### Lemmas for the summary operations (C10) -/

theorem sumBy_append (f : RoleHours → ℚ) (l1 l2 : List RoleHours) :
    sumBy f (l1 ++ l2) = sumBy f l1 + sumBy f l2 := by
  simp [sumBy]

theorem insertByCostDesc_perm (r : RoleHours) :
    ∀ l : List RoleHours, List.Perm (insertByCostDesc r l) (r :: l) := by
  intro l
  induction l with
  | nil => simp [insertByCostDesc]
  | cons x xs ih =>
      simp only [insertByCostDesc]
      by_cases h : r.total_cost ≤ x.total_cost
      · simp only [if_pos h]
        exact (ih.cons x).trans (List.Perm.swap r x xs)
      · simp [h]

theorem foldl_insert_perm :
    ∀ (l acc : List RoleHours),
      List.Perm (l.foldl (fun acc r => insertByCostDesc r acc) acc)
        (l ++ acc) := by
  intro l
  induction l with
  | nil => intro acc; simp
  | cons x xs ih =>
      intro acc
      simp only [List.foldl_cons]
      refine (ih (insertByCostDesc x acc)).trans ?_
      have h1 : List.Perm (xs ++ insertByCostDesc x acc) (xs ++ (x :: acc)) :=
        List.Perm.append_left xs (insertByCostDesc_perm x acc)
      refine h1.trans ?_
      have h2 : List.Perm (xs ++ (x :: acc)) (x :: (xs ++ acc)) :=
        List.perm_middle
      exact h2.trans (List.Perm.refl _)

theorem pySortByCostDesc_perm (l : List RoleHours) :
    List.Perm (pySortByCostDesc l) l := by
  have h := foldl_insert_perm l []
  simpa [pySortByCostDesc] using h

theorem sumBy_perm (f : RoleHours → ℚ) {l1 l2 : List RoleHours}
    (h : List.Perm l1 l2) : sumBy f l1 = sumBy f l2 :=
  (h.map f).sum_eq

/-- Sum of a value projection after a `setKey`, for any zero-preserving
projection. -/
theorem sum_map_setKey {α β : Type} [DecidableEq α]
    (f : β → ℚ) (z : β) (hz : f z = 0) :
    ∀ (l : List (α × β)) (k : α) (v : β),
      ((setKey l k v).map fun p => f p.2).sum =
        ((l.map fun p => f p.2).sum) - f (getD l k z) + f v := by
  intro l
  induction l with
  | nil => intro k v; simp [setKey, getD, hz]
  | cons p rest ih =>
      intro k v
      by_cases h : p.1 = k
      · simp [setKey, h, getD]
        ring
      · simp only [setKey, if_neg h, List.map_cons, List.sum_cons, getD]
        rw [ih]
        ring

/-- The per-role accumulation of `summarize_by_role` preserves the total
of `total_hours`. -/
theorem sum_total_foldl_addRole :
    ∀ (rows : List RoleHours) (acc : List (String × RoleTotals)),
      ((rows.foldl addRole acc).map fun p => p.2.total_hours).sum =
        ((acc.map fun p => p.2.total_hours).sum) +
          sumBy (·.total_hours) rows := by
  intro rows
  induction rows with
  | nil => intro acc; simp [sumBy]
  | cons r rs ih =>
      intro acc
      simp only [List.foldl_cons]
      rw [ih]
      have hstep : ((addRole acc r).map fun p => p.2.total_hours).sum =
          ((acc.map fun p => p.2.total_hours).sum) + r.total_hours := by
        unfold addRole
        rw [sum_map_setKey (fun t : RoleTotals => t.total_hours) zeroTotals
          rfl]
        ring
      rw [hstep]
      simp [sumBy]
      ring

/-- `summarize_by_role` preserves the total hours of its input rows. -/
theorem sumBy_total_summarize (rows : List RoleHours) :
    sumBy (·.total_hours) (summarize_by_role rows) =
      sumBy (·.total_hours) rows := by
  have h := sum_total_foldl_addRole rows []
  simp only [List.map_nil, List.sum_nil, zero_add] at h
  unfold summarize_by_role
  rw [sumBy_perm _ (pySortByCostDesc_perm _)]
  simp only [sumBy, List.map_map]
  exact h

/-- C10: with Degree Works enabled and non-empty rows, `get_role_summary`
aggregates only the base, Integrations and Reports rows (it is invariant
under any change of the Degree Works rows, and its hour total is the hour
total of those three packages only), while `get_delivery_split_summary`
counts the Degree Works rows in every per-channel hour and cost total. -/
theorem C10_role_summary_vs_delivery_split (results : EstimationResults)
    (l : List RoleHours)
    (hdw : results.degreeworks_role_hours = some l) (hl : l ≠ [])
    (hpos : 0 < sumBy (·.onshore_hours) (allSplitRows results) +
      sumBy (·.offshore_hours) (allSplitRows results) +
      sumBy (·.partner_hours) (allSplitRows results)) :
    (∀ x, get_role_summary { results with degreeworks_role_hours := x } =
      get_role_summary results) ∧
    sumBy (·.total_hours) (get_role_summary results) =
      sumBy (·.total_hours) (results.base_role_hours ++
        results.integrations_role_hours.getD [] ++
        results.reports_role_hours.getD []) ∧
    ((get_delivery_split_summary results).onshore.hours =
      sumBy (·.onshore_hours) (results.base_role_hours ++
        results.integrations_role_hours.getD [] ++
        results.reports_role_hours.getD []) +
        sumBy (·.onshore_hours) l ∧
     (get_delivery_split_summary results).offshore.hours =
      sumBy (·.offshore_hours) (results.base_role_hours ++
        results.integrations_role_hours.getD [] ++
        results.reports_role_hours.getD []) +
        sumBy (·.offshore_hours) l ∧
     (get_delivery_split_summary results).partner.hours =
      sumBy (·.partner_hours) (results.base_role_hours ++
        results.integrations_role_hours.getD [] ++
        results.reports_role_hours.getD []) +
        sumBy (·.partner_hours) l ∧
     (get_delivery_split_summary results).onshore.cost =
      sumBy (·.onshore_cost) (results.base_role_hours ++
        results.integrations_role_hours.getD [] ++
        results.reports_role_hours.getD []) +
        sumBy (·.onshore_cost) l ∧
     (get_delivery_split_summary results).offshore.cost =
      sumBy (·.offshore_cost) (results.base_role_hours ++
        results.integrations_role_hours.getD [] ++
        results.reports_role_hours.getD []) +
        sumBy (·.offshore_cost) l ∧
     (get_delivery_split_summary results).partner.cost =
      sumBy (·.partner_cost) (results.base_role_hours ++
        results.integrations_role_hours.getD [] ++
        results.reports_role_hours.getD []) +
        sumBy (·.partner_cost) l) := by
  have hrows : allSplitRows results = (results.base_role_hours ++
      results.integrations_role_hours.getD [] ++
      results.reports_role_hours.getD []) ++ l := by
    unfold allSplitRows
    rw [hdw]
    simp [List.append_assoc]
  refine ⟨fun x => rfl, sumBy_total_summarize _, ?_⟩
  unfold get_delivery_split_summary
  rw [if_pos hpos, hrows]
  simp [sumBy_append]
  refine ⟨by ring, by ring, by ring, by ring, by ring, by ring⟩

/-- A concrete base row for the C10 witness. -/
def rowBase10 : RoleHours :=
  ⟨"Developer", "Configure", 100, 70, 20, 10, 7000, 1000, 750, 8750, 175/2⟩

/-- A concrete Degree Works row for the C10 witness. -/
def rowDW10 : RoleHours :=
  ⟨"Scribe", "Degree Works – PVEs", 40, 28, 8, 4, 2800, 400, 300, 3500,
   175/2⟩

/-- Concrete results with Degree Works rows present, for the C10 witness. -/
def resultsC10 : EstimationResults :=
  ⟨inputsDefault, emptyStageHours, [rowBase10], none, none, none, none,
   none, some [rowDW10], 0, 140, 0, 12250, 140, 12250⟩

/-- Witness for C10 at concrete results: the role summary ignores the Degree
Works rows while the delivery split counts their onshore hours. -/
theorem C10_witness :
    (∀ x, get_role_summary { resultsC10 with degreeworks_role_hours := x } =
      get_role_summary resultsC10) ∧
    (get_delivery_split_summary resultsC10).onshore.hours =
      sumBy (·.onshore_hours) (resultsC10.base_role_hours ++
        resultsC10.integrations_role_hours.getD [] ++
        resultsC10.reports_role_hours.getD []) +
      sumBy (·.onshore_hours) [rowDW10] :=
  have h := C10_role_summary_vs_delivery_split resultsC10 [rowDW10] rfl
    (by simp)
    (by norm_num [allSplitRows, resultsC10, sumBy, rowBase10, rowDW10])
  ⟨h.1, h.2.2.1⟩

/-! ### Locale noninterference (C6) -/

/-- The hour-only projection of a priced row: everything except the cost
figures and the blended rate. -/
def hoursProj (r : RoleHours) : String × String × ℚ × ℚ × ℚ × ℚ :=
  (r.role, r.stage, r.total_hours, r.onshore_hours, r.offshore_hours,
   r.partner_hours)

/-- The hour figures of a base row do not depend on the locale: the locale
only reaches the rate lookup, which only feeds the cost fields. -/
theorem baseRoleRow_hours_locale (cfg : ConfigurationData)
    (st : PricingState) (product l1 l2 stage role : String) (dh : ℚ) :
    Option.map hoursProj (baseRoleRow cfg st product l1 stage role dh) =
      Option.map hoursProj (baseRoleRow cfg st product l2 stage role dh) := by
  by_cases hm : role ∈ getEnabledRoles cfg product
  · by_cases hp : getRolePercentage cfg stage role ≤ 0
    · simp [baseRoleRow, hm, hp]
    · by_cases ht : dh * getRolePercentage cfg stage role *
          getProductMultiplier cfg product role ≤ 0
      · simp [baseRoleRow, hm, hp, ht]
      · simp [baseRoleRow, hm, hp, ht, hoursProj]
  · simp [baseRoleRow, hm]

/-- The hour figures of an add-on row do not depend on the locale. -/
theorem addonRoleRow_hours_locale (cfg : ConfigurationData)
    (st : PricingState) (product l1 l2 stage role : String) (h : ℚ) :
    Option.map hoursProj (addonRoleRow cfg st product l1 stage role h) =
      Option.map hoursProj (addonRoleRow cfg st product l2 stage role h) := by
  by_cases hm : role ∈ getEnabledRoles cfg product
  · by_cases hh : h ≤ 0
    · simp [addonRoleRow, hm, hh]
    · by_cases ht : h * getProductMultiplier cfg product role ≤ 0
      · simp [addonRoleRow, hm, hh, ht]
      · simp [addonRoleRow, hm, hh, ht, hoursProj]
  · simp [addonRoleRow, hm]

/-- Locale invariance of the hour figures of the full base expansion. -/
theorem flatMap_rows_hours_locale (cfg : ConfigurationData)
    (st : PricingState) (product l1 l2 : String) :
    ∀ dhs : List (String × ℚ),
      ((dhs.flatMap fun p => if p.2 ≤ 0 then ([] : List RoleHours) else
          (getStageRoles cfg p.1).filterMap fun role =>
            baseRoleRow cfg st product l1 p.1 role p.2).map hoursProj) =
      ((dhs.flatMap fun p => if p.2 ≤ 0 then [] else
          (getStageRoles cfg p.1).filterMap fun role =>
            baseRoleRow cfg st product l2 p.1 role p.2).map hoursProj) := by
  intro dhs
  induction dhs with
  | nil => rfl
  | cons p ps ih =>
      simp only [List.flatMap_cons, List.map_append, ih]
      congr 1
      by_cases hp : p.2 ≤ 0
      · simp [hp]
      · simp only [if_neg hp]
        rw [List.map_filterMap, List.map_filterMap]
        apply List.filterMap_congr
        intro r _
        exact baseRoleRow_hours_locale cfg st product l1 l2 p.1 r p.2

/-- C6 (amended): two runs differing only in locale agree on every hour
figure: the base stage/presales/delivery hours are identical, the base
role rows have identical hour figures row by row, and the add-on role rows
have the same hour figures up to the cost-keyed ordering; a base row priced
at the two locales has identical hour figures, and its onshore cost differs
between the locales whenever the onshore hours are nonzero and the two
applicable onshore rates differ (rate differences confined to zero-hour
channels leave every cost figure unchanged). -/
theorem C6_locale_noninterference (cfg : ConfigurationData)
    (st : PricingState) (sh : StageHours) (inputs : EstimationInputs)
    (l stage role : String) (d : List (String × ℚ)) (dh : ℚ)
    (r1 r2 : RoleHours)
    (hr1 : baseRoleRow cfg st inputs.product l stage role dh = some r1)
    (hr2 : baseRoleRow cfg st inputs.product inputs.locale stage role dh =
      some r2) :
    estimate_base_n2s cfg { inputs with locale := l } =
      estimate_base_n2s cfg inputs ∧
    (calculate_role_hours_and_costs cfg st sh
        { inputs with locale := l }).map hoursProj =
      (calculate_role_hours_and_costs cfg st sh inputs).map hoursProj ∧
    List.Perm
      ((create_role_hours cfg st d stage { inputs with locale := l }).map
        hoursProj)
      ((create_role_hours cfg st d stage inputs).map hoursProj) ∧
    hoursProj r1 = hoursProj r2 ∧
    (r1.onshore_hours ≠ 0 →
      (getRates st role l).onshore ≠
        (getRates st role inputs.locale).onshore →
      r1.onshore_cost ≠ r2.onshore_cost) := by
  refine ⟨rfl, ?_, ?_, ?_⟩
  · exact flatMap_rows_hours_locale cfg st inputs.product l inputs.locale
      sh.delivery_hours
  · have h1 : List.Perm
        (create_role_hours cfg st d stage { inputs with locale := l })
        (d.filterMap fun p =>
          addonRoleRow cfg st inputs.product l stage p.1 p.2) :=
      pySortByCostDesc_perm _
    have h2 : List.Perm
        (create_role_hours cfg st d stage inputs)
        (d.filterMap fun p =>
          addonRoleRow cfg st inputs.product inputs.locale stage p.1 p.2) :=
      pySortByCostDesc_perm _
    have hmapeq : (d.filterMap fun p =>
        addonRoleRow cfg st inputs.product l stage p.1 p.2).map hoursProj =
        (d.filterMap fun p =>
          addonRoleRow cfg st inputs.product inputs.locale stage
            p.1 p.2).map hoursProj := by
      rw [List.map_filterMap, List.map_filterMap]
      apply List.filterMap_congr
      intro p _
      exact addonRoleRow_hours_locale cfg st inputs.product l inputs.locale
        stage p.1 p.2
    refine (h1.map hoursProj).trans ?_
    rw [hmapeq]
    exact (h2.map hoursProj).symm
  · by_cases hm : role ∈ getEnabledRoles cfg inputs.product
    · by_cases hp : getRolePercentage cfg stage role ≤ 0
      · simp [baseRoleRow, hm, hp] at hr1
      · by_cases ht : dh * getRolePercentage cfg stage role *
            getProductMultiplier cfg inputs.product role ≤ 0
        · simp [baseRoleRow, hm, hp, ht] at hr1
        · simp [baseRoleRow, hm, hp, ht] at hr1 hr2
          subst hr1
          subst hr2
          constructor
          · rfl
          · intro hon hrate hceq
            apply hrate
            have hon2 : dh * getRolePercentage cfg stage role *
                getProductMultiplier cfg inputs.product role *
                (getDeliverySplit st role).onshore_pct ≠ 0 := hon
            exact mul_left_cancel₀ hon2 hceq
    · simp [baseRoleRow, hm] at hr1

/-- Configuration with two locales whose rate cards differ on the onshore
rate, used by the C6 witness. -/
def cfgC6w : ConfigurationData where
  baseline_hours := 100
  stage_weights := [⟨"Deliver", "Configure", 1⟩]
  stages_presales := []
  activities := []
  role_mix := [⟨"Configure", "Developer", 1/2⟩]
  rates := [⟨"Developer", "US", 100, 50, 75⟩, ⟨"Developer", "UK", 120, 50, 75⟩]
  delivery_mix := [⟨none, 7/10, 1/5, 1/10⟩]
  addon_packages := []
  product_role_map := []
  size_multipliers := [("Medium", 1)]
  delivery_type_multipliers := [("Net New", 1)]
  addon_caps := []
  product_delivery_type_multipliers := []

/-- The row priced at locale "UK" under `cfgC6w`. -/
def rowC6UK : RoleHours :=
  ⟨"Developer", "Configure", 50, 35, 10, 5, 4200, 500, 375, 5075, 203/2⟩

/-- The row priced at locale "US" under `cfgC6w`. -/
def rowC6US : RoleHours :=
  ⟨"Developer", "Configure", 50, 35, 10, 5, 3500, 500, 375, 4375, 175/2⟩

/-- Witness for C6 at a concrete configuration: locale "UK" versus the
default locale "US"; hour figures agree and the onshore costs differ. -/
theorem C6_witness :
    estimate_base_n2s cfgC6w { inputsDefault with locale := "UK" } =
      estimate_base_n2s cfgC6w inputsDefault ∧
    hoursProj rowC6UK = hoursProj rowC6US ∧
    rowC6UK.onshore_cost ≠ rowC6US.onshore_cost :=
  have hen : getEnabledRoles cfgC6w inputsDefault.product = ["Developer"] :=
    by decide
  have hpct : getRolePercentage cfgC6w "Configure" "Developer" = 1/2 := rfl
  have hpm : getProductMultiplier cfgC6w inputsDefault.product "Developer" =
      1 := rfl
  have hsplit : getDeliverySplit (buildCaches cfgC6w) "Developer" =
      ⟨none, 7/10, 1/5, 1/10⟩ := rfl
  have hrUK : getRates (buildCaches cfgC6w) "Developer" "UK" =
      ⟨"Developer", "UK", 120, 50, 75⟩ := rfl
  have hrUS : getRates (buildCaches cfgC6w) "Developer" "US" =
      ⟨"Developer", "US", 100, 50, 75⟩ := rfl
  have hr1 : baseRoleRow cfgC6w (buildCaches cfgC6w) inputsDefault.product
      "UK" "Configure" "Developer" 100 = some rowC6UK := by
    norm_num [baseRoleRow, hen, hpct, hpm, hsplit, hrUK, rowC6UK]
  have hr2 : baseRoleRow cfgC6w (buildCaches cfgC6w) inputsDefault.product
      inputsDefault.locale "Configure" "Developer" 100 = some rowC6US := by
    have hloc : inputsDefault.locale = "US" := rfl
    rw [hloc]
    norm_num [baseRoleRow, hen, hpct, hpm, hsplit, hrUS, rowC6US]
  have h := C6_locale_noninterference cfgC6w (buildCaches cfgC6w)
    emptyStageHours inputsDefault "UK" "Configure" "Developer" []
    100 rowC6UK rowC6US hr1 hr2
  ⟨h.1, h.2.2.2.1,
   h.2.2.2.2 (by norm_num [rowC6UK])
     (by
       have hloc : inputsDefault.locale = "US" := rfl
       rw [hloc, hrUK, hrUS]
       norm_num)⟩

/-- Configuration whose two locales differ only in the onshore rate while
the delivery mix sends zero hours onshore, used by the C6 counterexample. -/
def cfgC6x : ConfigurationData where
  baseline_hours := 100
  stage_weights := [⟨"Deliver", "Configure", 1⟩]
  stages_presales := []
  activities := []
  role_mix := [⟨"Configure", "Developer", 1/2⟩]
  rates := [⟨"Developer", "US", 100, 50, 75⟩, ⟨"Developer", "UK", 120, 50, 75⟩]
  delivery_mix := [⟨none, 0, 1/2, 1/2⟩]
  addon_packages := []
  product_role_map := []
  size_multipliers := [("Medium", 1)]
  delivery_type_multipliers := [("Net New", 1)]
  addon_caps := []
  product_delivery_type_multipliers := []

/-- Delivery hours fed to the counterexample runs. -/
def shC6 : StageHours :=
  ⟨[("Configure", 100)], [("Configure", 0)], [("Configure", 100)]⟩

/-- Counterexample to the cost half of C6: the "UK" and "US" rate cards
differ (onshore 120 versus 100), yet the two runs return identical
non-empty priced rows because the differing channel carries zero hours. -/
theorem C6_counterexample :
    (getRates (buildCaches cfgC6x) "Developer" "UK").onshore ≠
      (getRates (buildCaches cfgC6x) "Developer" "US").onshore ∧
    calculate_role_hours_and_costs cfgC6x (buildCaches cfgC6x) shC6
        { inputsDefault with locale := "UK" } =
      calculate_role_hours_and_costs cfgC6x (buildCaches cfgC6x) shC6
        inputsDefault ∧
    calculate_role_hours_and_costs cfgC6x (buildCaches cfgC6x) shC6
        inputsDefault ≠ [] := by
  have hrUK : getRates (buildCaches cfgC6x) "Developer" "UK" =
      ⟨"Developer", "UK", 120, 50, 75⟩ := rfl
  have hrUS : getRates (buildCaches cfgC6x) "Developer" "US" =
      ⟨"Developer", "US", 100, 50, 75⟩ := rfl
  have hen : getEnabledRoles cfgC6x inputsDefault.product = ["Developer"] :=
    by decide
  have hsr : getStageRoles cfgC6x "Configure" = ["Developer"] := by decide
  have hpct : getRolePercentage cfgC6x "Configure" "Developer" = 1/2 := rfl
  have hpm : getProductMultiplier cfgC6x inputsDefault.product "Developer" =
      1 := rfl
  have hsplit : getDeliverySplit (buildCaches cfgC6x) "Developer" =
      ⟨none, 0, 1/2, 1/2⟩ := rfl
  have hloc : inputsDefault.locale = "US" := rfl
  refine ⟨?_, ?_, ?_⟩
  · rw [hrUK, hrUS]
    norm_num
  · norm_num [calculate_role_hours_and_costs, baseRoleRow, shC6, hen, hsr,
      hpct, hpm, hsplit, hloc, hrUK, hrUS, List.flatMap_cons,
      List.flatMap_nil, List.filterMap_cons, List.filterMap_nil]
  · norm_num [calculate_role_hours_and_costs, baseRoleRow, shC6, hen, hsr,
      hpct, hpm, hsplit, hloc, hrUS, List.flatMap_cons, List.flatMap_nil,
      List.filterMap_cons, List.filterMap_nil]

end N2S
